import Mathlib

/-!
Shallow embedding of the ledger engine of `startkit-nodejs-prima-mysql`:
the transaction service (`src/modules/transaction/transaction.service.ts`)
and the loan service (`src/modules/loan/loan.service.ts`).

Monetary values are `DECIMAL(18,2)` in the store; we model them as `Int`
(amounts in cents — fixed-point, two fractional digits, so every arithmetic
operation the services perform is exact integer arithmetic).  Record ids are
uuids in the store; we model them as `Nat` drawn from a fresh-id counter
`nextId` held in the database state.  `deletedAt` timestamps are modelled as
`Option Nat` against a clock value `now` held in the state.

`prisma.$transaction` is modelled by `prismaTransaction`: the body threads an
explicit state and may fail; on failure the pre-transaction state is kept
(the store's documented rollback semantics).  All service reads
(`findFirst`, `findUnique`) become `List.find?` with the same predicates.
-/

namespace Ledger

/-- `TransactionType` / `Category.type` enum: `income | expense | transfer`. -/
inductive TxType
  | income
  | expense
  | transfer
deriving DecidableEq, Repr

/-- `TransactionEntry.direction` enum: `in | out` (Lean reserves `in`). -/
inductive Direction
  | dirIn
  | dirOut
deriving DecidableEq, Repr

/-- `Loan.kind` enum: `you_owe | owed_to_you`. -/
inductive LoanKind
  | you_owe
  | owed_to_you
deriving DecidableEq, Repr

/-- `Loan.status` enum: `open | closed` (Lean reserves `open`). -/
inductive LoanStatus
  | opened
  | closed
deriving DecidableEq, Repr

/-- `Wallet` row: balances are fixed-point decimals, modelled in cents. -/
structure Wallet where
  id : Nat
  userId : Nat
  openingBalance : Int
  currentBalance : Int
  isArchived : Bool
deriving DecidableEq, Repr

/-- `Category` row (only the fields the engine reads). -/
structure Category where
  id : Nat
  userId : Nat
  ctype : TxType
  name : String
  isSystem : Bool
deriving DecidableEq, Repr

/-- `TransactionEntry` row (owned by its transaction, stored inline). -/
structure TransactionEntry where
  walletId : Nat
  direction : Direction
  amount : Int
deriving DecidableEq, Repr

/-- `Transaction` row with its entries inlined (they are created with it and
never mutated independently). -/
structure Txn where
  id : Nat
  userId : Nat
  ttype : TxType
  transactionDate : Nat
  categoryId : Option Nat
  amount : Int
  note : Option String
  loanId : Option Nat
  deletedAt : Option Nat
  entries : List TransactionEntry
deriving DecidableEq, Repr

/-- `Loan` row. -/
structure Loan where
  id : Nat
  userId : Nat
  kind : LoanKind
  counterpartyName : String
  principal : Int
  outstandingAmount : Int
  startDate : Nat
  dueDate : Option Nat
  note : Option String
  status : LoanStatus
  deletedAt : Option Nat
deriving DecidableEq, Repr

/-- `LoanPayment` row. -/
structure LoanPayment where
  id : Nat
  loanId : Nat
  userId : Nat
  walletId : Nat
  transactionId : Nat
  paymentDate : Nat
  amount : Int
  note : Option String
deriving DecidableEq, Repr

/-- The transactional store: the tables the engine touches, a fresh-id
counter for created rows, and the current clock value. -/
structure DB where
  wallets : List Wallet
  categories : List Category
  transactions : List Txn
  loans : List Loan
  loanPayments : List LoanPayment
  nextId : Nat
  now : Nat
deriving DecidableEq, Repr

/-- String-keyed business errors thrown by the services (plus the
validation-layer rejection, see `validateAmountPositive`). -/
inductive Err
  | TRANSACTION_WALLET_NOT_FOUND
  | TRANSACTION_CATEGORY_NOT_FOUND
  | INVALID_CATEGORY_TYPE_FOR_INCOME
  | INVALID_CATEGORY_TYPE_FOR_EXPENSE
  | INSUFFICIENT_WALLET_BALANCE
  | SAME_WALLET_TRANSFER
  | WALLET_NOT_FOUND
  | LOAN_NOT_FOUND
  | LOAN_ALREADY_CLOSED
  | LOAN_HAS_PAYMENTS
  | PAYMENT_EXCEEDS_OUTSTANDING
  | VALIDATION_ERROR
deriving DecidableEq, Repr

/-- `prisma.$transaction(body)`: run the body against the current state; on
success commit its final state, on any thrown error roll everything back to
the pre-transaction state. -/
def prismaTransaction (db : DB) (body : DB → Except Err (DB × α)) :
    DB × Except Err α :=
  match body db with
  | .ok (db2, a) => (db2, .ok a)
  | .error e => (db, .error e)

/-- `prisma.wallet.findFirst({ where: { id, userId, isArchived: false } })`. -/
def walletFind (db : DB) (walletId userId : Nat) : Option Wallet :=
  db.wallets.find? fun w =>
    w.id == walletId && w.userId == userId && !w.isArchived

/-- `tx.wallet.update` with a `currentBalance: { increment: delta }` clause
(`decrement` is the same with a negated delta). -/
def walletIncrement (wallets : List Wallet) (walletId : Nat) (delta : Int) :
    List Wallet :=
  wallets.map fun w =>
    if w.id == walletId then { w with currentBalance := w.currentBalance + delta }
    else w

/-- Soft delete (`data: { deletedAt: new Date() }`) of the transaction with
the given id. -/
def txnSoftDelete (transactions : List Txn) (txnId : Nat) (now : Nat) :
    List Txn :=
  transactions.map fun t =>
    if t.id == txnId then { t with deletedAt := some now } else t

/-- A store transaction whose body succeeds commits the body's final
state. -/
theorem prismaTransaction_ok {α} (db : DB) (body : DB → Except Err (DB × α))
    (db2 : DB) (a : α) (h : body db = .ok (db2, a)) :
    prismaTransaction db body = (db2, .ok a) := by
  unfold prismaTransaction
  rw [h]

end Ledger

namespace Ledger.TransactionService

open Ledger

/-- `validateWalletOwnership` of `transaction.service.ts`: the wallet must
exist for this user and not be archived; when a `requiredAmount` is given the
wallet must also hold at least that balance. -/
def validateWalletOwnership (db : DB) (walletId userId : Nat)
    (requiredAmount : Option Int) : Except Err Wallet :=
  match walletFind db walletId userId with
  | none => .error .TRANSACTION_WALLET_NOT_FOUND
  | some wallet =>
    match requiredAmount with
    | some amt =>
      if wallet.currentBalance < amt then .error .INSUFFICIENT_WALLET_BALANCE
      else .ok wallet
    | none => .ok wallet

/-- `validateCategoryOwnership`: the category must exist for this user and,
for income/expense, its type must match the transaction type. -/
def validateCategoryOwnership (db : DB) (categoryId userId : Nat)
    (transactionType : TxType) : Except Err Category :=
  match db.categories.find? fun c => c.id == categoryId && c.userId == userId with
  | none => .error .TRANSACTION_CATEGORY_NOT_FOUND
  | some category =>
    if transactionType = .income ∧ category.ctype ≠ .income then
      .error .INVALID_CATEGORY_TYPE_FOR_INCOME
    else if transactionType = .expense ∧ category.ctype ≠ .expense then
      .error .INVALID_CATEGORY_TYPE_FOR_EXPENSE
    else .ok category

/-- `createIncomeTransaction`: one `in` entry on the wallet, balance
incremented, all inside one store transaction. -/
def createIncomeTransaction (walletId categoryId : Nat)
    (transactionDate : Nat) (amount : Int) (note : Option String)
    (userId : Nat) (db : DB) : DB × Except Err Txn :=
  match validateWalletOwnership db walletId userId none with
  | .error e => (db, .error e)
  | .ok _ =>
  match validateCategoryOwnership db categoryId userId .income with
  | .error e => (db, .error e)
  | .ok _ =>
    prismaTransaction db fun tx =>
      let transaction : Txn :=
        { id := tx.nextId, userId, ttype := .income, transactionDate
          categoryId := some categoryId, amount, note, loanId := none
          deletedAt := none
          entries := [⟨walletId, .dirIn, amount⟩] }
      let tx1 : DB :=
        { tx with transactions := tx.transactions ++ [transaction]
                  nextId := tx.nextId + 1 }
      let tx2 : DB :=
        { tx1 with wallets := walletIncrement tx1.wallets walletId amount }
      .ok (tx2, transaction)

/-- `createExpenseTransaction`: balance pre-checked, then re-checked inside
the store transaction (`findUnique` by id only), one `out` entry, balance
decremented. -/
def createExpenseTransaction (walletId categoryId : Nat)
    (transactionDate : Nat) (amount : Int) (note : Option String)
    (userId : Nat) (db : DB) : DB × Except Err Txn :=
  match validateWalletOwnership db walletId userId (some amount) with
  | .error e => (db, .error e)
  | .ok _ =>
  match validateCategoryOwnership db categoryId userId .expense with
  | .error e => (db, .error e)
  | .ok _ =>
    prismaTransaction db fun tx =>
      match tx.wallets.find? fun w => w.id == walletId with
      | none => .error .INSUFFICIENT_WALLET_BALANCE
      | some wallet =>
      if wallet.currentBalance < amount then
        .error .INSUFFICIENT_WALLET_BALANCE
      else
        let transaction : Txn :=
          { id := tx.nextId, userId, ttype := .expense, transactionDate
            categoryId := some categoryId, amount, note, loanId := none
            deletedAt := none
            entries := [⟨walletId, .dirOut, amount⟩] }
        let tx1 : DB :=
          { tx with transactions := tx.transactions ++ [transaction]
                    nextId := tx.nextId + 1 }
        let tx2 : DB :=
          { tx1 with wallets := walletIncrement tx1.wallets walletId (-amount) }
        .ok (tx2, transaction)

/-- `createTransferTransaction`: distinct wallets, both owned, source balance
pre-checked and re-checked inside the store transaction; two entries under
one category-less transaction; both balances adjusted. -/
def createTransferTransaction (fromWalletId toWalletId : Nat)
    (transactionDate : Nat) (amount : Int) (note : Option String)
    (userId : Nat) (db : DB) : DB × Except Err Txn :=
  if fromWalletId == toWalletId then (db, .error .SAME_WALLET_TRANSFER)
  else
  match validateWalletOwnership db fromWalletId userId (some amount) with
  | .error e => (db, .error e)
  | .ok _ =>
  match validateWalletOwnership db toWalletId userId none with
  | .error e => (db, .error e)
  | .ok _ =>
    prismaTransaction db fun tx =>
      match tx.wallets.find? fun w => w.id == fromWalletId with
      | none => .error .INSUFFICIENT_WALLET_BALANCE
      | some fromWallet =>
      if fromWallet.currentBalance < amount then
        .error .INSUFFICIENT_WALLET_BALANCE
      else
        let transaction : Txn :=
          { id := tx.nextId, userId, ttype := .transfer, transactionDate
            categoryId := none, amount, note, loanId := none
            deletedAt := none
            entries := [⟨fromWalletId, .dirOut, amount⟩,
                        ⟨toWalletId, .dirIn, amount⟩] }
        let tx1 : DB :=
          { tx with transactions := tx.transactions ++ [transaction]
                    nextId := tx.nextId + 1 }
        let tx2 : DB :=
          { tx1 with wallets := walletIncrement tx1.wallets fromWalletId (-amount) }
        let tx3 : DB :=
          { tx2 with wallets := walletIncrement tx2.wallets toWalletId amount }
        .ok (tx3, transaction)

/-- The validated payload of `POST /transactions` (`CreateTransactionData`),
discriminated on `type`. -/
inductive CreateTransactionData
  | income (walletId categoryId : Nat) (transactionDate : Nat)
      (amount : Int) (note : Option String)
  | expense (walletId categoryId : Nat) (transactionDate : Nat)
      (amount : Int) (note : Option String)
  | transfer (fromWalletId toWalletId : Nat) (transactionDate : Nat)
      (amount : Int) (note : Option String)
deriving DecidableEq, Repr

/-- The monetary amount carried by a transaction payload. -/
def CreateTransactionData.amount : CreateTransactionData → Int
  | .income _ _ _ a _ => a
  | .expense _ _ _ a _ => a
  | .transfer _ _ _ a _ => a

/-- `TransactionService.createTransaction`: dispatch on the payload type.
(The service's `default: UNSUPPORTED_TRANSACTION_TYPE` arm is unreachable
for the typed payload.) -/
def createTransaction (data : CreateTransactionData) (userId : Nat)
    (db : DB) : DB × Except Err Txn :=
  match data with
  | .income walletId categoryId transactionDate amount note =>
    createIncomeTransaction walletId categoryId transactionDate amount note userId db
  | .expense walletId categoryId transactionDate amount note =>
    createExpenseTransaction walletId categoryId transactionDate amount note userId db
  | .transfer fromWalletId toWalletId transactionDate amount note =>
    createTransferTransaction fromWalletId toWalletId transactionDate amount note userId db

end Ledger.TransactionService

namespace Ledger.LoanService

open Ledger

/-- `validateWalletOwnership` of `loan.service.ts` (same checks as the
transaction service but its own `WALLET_NOT_FOUND` error key). -/
def validateWalletOwnership (db : DB) (walletId userId : Nat)
    (requiredAmount : Option Int) : Except Err Wallet :=
  match walletFind db walletId userId with
  | none => .error .WALLET_NOT_FOUND
  | some wallet =>
    match requiredAmount with
    | some amt =>
      if wallet.currentBalance < amt then .error .INSUFFICIENT_WALLET_BALANCE
      else .ok wallet
    | none => .ok wallet

/-- `prisma.loan.findFirst({ where: { id, userId, deletedAt: null } })`. -/
def loanFind (db : DB) (loanId userId : Nat) : Option Loan :=
  db.loans.find? fun l =>
    l.id == loanId && l.userId == userId && l.deletedAt == none

/-- `validateLoanOwnership`: the loan must exist for this user, not be
soft-deleted, and not be closed. -/
def validateLoanOwnership (db : DB) (loanId userId : Nat) : Except Err Loan :=
  match loanFind db loanId userId with
  | none => .error .LOAN_NOT_FOUND
  | some loan =>
    if loan.status = .closed then .error .LOAN_ALREADY_CLOSED
    else .ok loan

/-- The validated payload of `POST /loans` (`CreateLoanData`). -/
structure CreateLoanData where
  kind : LoanKind
  counterpartyName : String
  principal : Int
  walletId : Nat
  startDate : Nat
  dueDate : Option Nat
  note : Option String
deriving DecidableEq, Repr

/-- The validated payload of `POST /loans/:id/payments`
(`CreateLoanPaymentData`). -/
structure CreateLoanPaymentData where
  loanId : Nat
  walletId : Nat
  paymentDate : Nat
  amount : Int
  note : Option String
deriving DecidableEq, Repr

/-- The transaction type of a loan's disbursement: `income` for `you_owe`,
`expense` for `owed_to_you`. -/
def disbursementType : LoanKind → TxType
  | .you_owe => .income
  | .owed_to_you => .expense

/-- The entry direction of a loan's disbursement: `in` for `you_owe`,
`out` for `owed_to_you`. -/
def disbursementDirection : LoanKind → Direction
  | .you_owe => .dirIn
  | .owed_to_you => .dirOut

/-- The reserved system-category name looked up for a disbursement. -/
def disbursementCategoryName : LoanKind → String
  | .you_owe => "Vay no"
  | .owed_to_you => "Cho vay"

/-- Best-effort default-category lookup
(`tx.category.findFirst({ where: { userId, type, name, isSystem: true } })`),
yielding `categoryId` or `null`. -/
def defaultCategoryId (db : DB) (userId : Nat) (transactionType : TxType)
    (name : String) : Option Nat :=
  (db.categories.find? fun c =>
    c.userId == userId && c.ctype == transactionType &&
    c.name == name && c.isSystem).map (·.id)

/-- `LoanService.createLoan`: validate the wallet (and, for `owed_to_you`,
its balance); then in one store transaction create the loan
(`outstandingAmount = principal`, `status = open`), the linked disbursement
transaction with its single entry, and apply the balance delta. -/
def createLoan (data : CreateLoanData) (userId : Nat) (db : DB) :
    DB × Except Err Loan :=
  match validateWalletOwnership db data.walletId userId none with
  | .error e => (db, .error e)
  | .ok _ =>
  match (if data.kind = .owed_to_you then
          (validateWalletOwnership db data.walletId userId
            (some data.principal)).map (fun _ => ())
         else .ok ()) with
  | .error e => (db, .error e)
  | .ok _ =>
    prismaTransaction db fun tx =>
      let loan : Loan :=
        { id := tx.nextId, userId, kind := data.kind
          counterpartyName := data.counterpartyName
          principal := data.principal, outstandingAmount := data.principal
          startDate := data.startDate, dueDate := data.dueDate
          note := data.note, status := .opened, deletedAt := none }
      let transactionType := disbursementType data.kind
      let entryDirection := disbursementDirection data.kind
      let categoryId : Option Nat :=
        defaultCategoryId tx userId transactionType
          (disbursementCategoryName data.kind)
      let transaction : Txn :=
        { id := tx.nextId + 1, userId, ttype := transactionType
          transactionDate := data.startDate, categoryId
          amount := data.principal, note := data.note
          loanId := some loan.id, deletedAt := none
          entries := [⟨data.walletId, entryDirection, data.principal⟩] }
      let tx1 : DB :=
        { tx with loans := tx.loans ++ [loan]
                  transactions := tx.transactions ++ [transaction]
                  nextId := tx.nextId + 2 }
      let tx2 : DB :=
        { tx1 with wallets :=
            (walletIncrement tx1.wallets data.walletId
              (if data.kind = .you_owe then data.principal else -data.principal)) }
      .ok (tx2, loan)

/-- `LoanService.deleteLoan`: inside one store transaction, reject when the
loan is absent or has any payment; otherwise find the linked disbursement
transaction, and when it exists with exactly one entry, reverse the wallet
delta and soft-delete it; finally soft-delete the loan. -/
def deleteLoan (loanId userId : Nat) (db : DB) : DB × Except Err Loan :=
  prismaTransaction db fun tx =>
    match tx.loans.find? fun l =>
        l.id == loanId && l.userId == userId && l.deletedAt == none with
    | none => .error .LOAN_NOT_FOUND
    | some loan =>
    if tx.loanPayments.any fun p => p.loanId == loan.id then
      .error .LOAN_HAS_PAYMENTS
    else
      let baseTransaction :=
        tx.transactions.find? fun t =>
          t.userId == userId && t.deletedAt == none && t.loanId == some loan.id
      let tx1 : DB :=
        match baseTransaction with
        | some bt =>
          match bt.entries with
          | [entry] =>
            let txA : DB :=
              { tx with wallets :=
                  (walletIncrement tx.wallets entry.walletId
                    (if loan.kind = .you_owe then -loan.principal
                     else loan.principal)) }
            { txA with transactions :=
                txnSoftDelete txA.transactions bt.id txA.now }
          | _ => tx
        | none => tx
      let deleted : Loan := { loan with deletedAt := some tx1.now }
      let tx2 : DB :=
        { tx1 with loans := tx1.loans.map fun l =>
            if l.id == loanId then { l with deletedAt := some tx1.now } else l }
      .ok (tx2, deleted)

/-- The transaction type of a repayment: `expense` for `you_owe`,
`income` for `owed_to_you`. -/
def repaymentType : LoanKind → TxType
  | .you_owe => .expense
  | .owed_to_you => .income

/-- The entry direction of a repayment: `out` for `you_owe`, `in` for
`owed_to_you`. -/
def repaymentDirection : LoanKind → Direction
  | .you_owe => .dirOut
  | .owed_to_you => .dirIn

/-- The reserved system-category name looked up for a repayment. -/
def repaymentCategoryName : LoanKind → String
  | .you_owe => "Tra no"
  | .owed_to_you => "Thu no"

/-- `LoanService.createLoanPayment`: validate the loan (exists, owned,
not deleted, not closed) and the amount against `outstandingAmount`;
validate the wallet (balance check only for `you_owe`); then in one store
transaction create the repayment transaction with its single entry, the
`LoanPayment` row, apply the balance delta, and recompute the loan's
outstanding amount and status. -/
def createLoanPayment (data : CreateLoanPaymentData) (userId : Nat)
    (db : DB) : DB × Except Err LoanPayment :=
  match validateLoanOwnership db data.loanId userId with
  | .error e => (db, .error e)
  | .ok loan =>
  if data.amount > loan.outstandingAmount then
    (db, .error .PAYMENT_EXCEEDS_OUTSTANDING)
  else
  match validateWalletOwnership db data.walletId userId
      (if loan.kind = .you_owe then some data.amount else none) with
  | .error e => (db, .error e)
  | .ok _ =>
    prismaTransaction db fun tx =>
      let transactionType := repaymentType loan.kind
      let entryDirection := repaymentDirection loan.kind
      let categoryId : Option Nat :=
        defaultCategoryId tx userId transactionType
          (repaymentCategoryName loan.kind)
      let transaction : Txn :=
        { id := tx.nextId, userId, ttype := transactionType
          transactionDate := data.paymentDate, categoryId
          amount := data.amount, note := data.note
          loanId := none, deletedAt := none
          entries := [⟨data.walletId, entryDirection, data.amount⟩] }
      let loanPayment : LoanPayment :=
        { id := tx.nextId + 1, loanId := data.loanId, userId
          walletId := data.walletId, transactionId := transaction.id
          paymentDate := data.paymentDate, amount := data.amount
          note := data.note }
      let tx1 : DB :=
        { tx with transactions := tx.transactions ++ [transaction]
                  loanPayments := tx.loanPayments ++ [loanPayment]
                  nextId := tx.nextId + 2 }
      let tx2 : DB :=
        { tx1 with wallets :=
            (walletIncrement tx1.wallets data.walletId
              (if loan.kind = .you_owe then -data.amount else data.amount)) }
      let newOutstandingAmount := loan.outstandingAmount - data.amount
      let newStatus : LoanStatus :=
        if newOutstandingAmount ≤ 0 then .closed else .opened
      let tx3 : DB :=
        { tx2 with loans := tx2.loans.map fun l =>
            if l.id == data.loanId then
              { l with outstandingAmount := max 0 newOutstandingAmount
                       status := newStatus }
            else l }
      .ok (tx3, loanPayment)

/-- One `groupBy(['kind','status'])` result row. -/
structure LoanStatRow where
  kind : LoanKind
  status : LoanStatus
  countId : Nat
  sumOutstandingAmount : Int
deriving DecidableEq, Repr

/-- The result shape of `LoanService.getLoanStats`. -/
structure LoanStatsBucket where
  count : Nat
  totalAmount : Int
deriving DecidableEq, Repr

/-- The result shape of `LoanService.getLoanStats`. -/
structure LoanStats where
  youOwe : LoanStatsBucket
  owedToYou : LoanStatsBucket
  totalLoans : Nat
deriving DecidableEq, Repr

/-- `prisma.loan.groupBy({ by: ['kind','status'], where: { userId,
deletedAt: null }, _count: { id }, _sum: { outstandingAmount } })`: one row
per (kind, status) pair present among the user's non-deleted loans, carrying
that group's row count and outstanding-amount sum.  The key space is the
2×2 enum product, enumerated in a fixed order (the reduces applied to the
result are order-insensitive sums). -/
def loanGroupBy (db : DB) (userId : Nat) : List LoanStatRow :=
  [(LoanKind.you_owe, LoanStatus.opened),
   (LoanKind.you_owe, LoanStatus.closed),
   (LoanKind.owed_to_you, LoanStatus.opened),
   (LoanKind.owed_to_you, LoanStatus.closed)].filterMap fun ks =>
    let group := db.loans.filter fun l =>
      l.userId == userId && l.deletedAt == none &&
      l.kind == ks.1 && l.status == ks.2
    if group.isEmpty then none
    else some { kind := ks.1, status := ks.2, countId := group.length
                sumOutstandingAmount := (group.map (·.outstandingAmount)).sum }

/-- `LoanService.getLoanStats`: filter/reduce over the grouped rows —
open-loan counts and outstanding totals per kind, plus the overall
non-deleted loan count. -/
def getLoanStats (userId : Nat) (db : DB) : LoanStats :=
  let loanStats := loanGroupBy db userId
  let youOweTotal :=
    ((loanStats.filter fun s => s.kind == .you_owe && s.status == .opened).map
      (·.sumOutstandingAmount)).sum
  let owedToYouTotal :=
    ((loanStats.filter fun s => s.kind == .owed_to_you && s.status == .opened).map
      (·.sumOutstandingAmount)).sum
  { youOwe :=
      { count := ((loanStats.filter fun s =>
            s.kind == .you_owe && s.status == .opened).map (·.countId)).sum
        totalAmount := youOweTotal }
    owedToYou :=
      { count := ((loanStats.filter fun s =>
            s.kind == .owed_to_you && s.status == .opened).map (·.countId)).sum
        totalAmount := owedToYouTotal }
    totalLoans := (loanStats.map (·.countId)).sum }

end Ledger.LoanService

namespace Ledger

open Ledger.TransactionService (CreateTransactionData)
open Ledger.LoanService (CreateLoanData CreateLoanPaymentData)

/-- Modelled from the spec: the request-validation schemas
(`transaction.schema.ts`, `loan.schema.ts`, applied by the excluded HTTP
layer before a service is invoked) are not among the provided sources; per
the spec's numeric policy, "amounts ≤ 0 are rejected at every entry point".
A non-positive monetary amount is rejected as a validation error before the
service runs. -/
def validateAmountPositive (amount : Int) : Except Err Unit :=
  if amount ≤ 0 then .error .VALIDATION_ERROR else .ok ()

/-- One engine operation together with its validated input. -/
inductive EngineOp
  | createTransaction (data : CreateTransactionData) (userId : Nat)
  | createLoan (data : CreateLoanData) (userId : Nat)
  | createLoanPayment (data : CreateLoanPaymentData) (userId : Nat)
  | deleteLoan (loanId userId : Nat)
deriving DecidableEq, Repr

/-- The monetary amount an operation's entry point validates, when it has
one (`deleteLoan` takes no amount). -/
def EngineOp.amountArg : EngineOp → Option Int
  | .createTransaction data _ => some data.amount
  | .createLoan data _ => some data.principal
  | .createLoanPayment data _ => some data.amount
  | .deleteLoan _ _ => none

/-- Run one engine operation from its entry point: the (spec-modelled)
amount validation, then the service; returns the resulting store state and
the outcome with its result erased. -/
def runEngineOp (op : EngineOp) (db : DB) : DB × Except Err Unit :=
  match op with
  | .createTransaction data userId =>
    match validateAmountPositive data.amount with
    | .error e => (db, .error e)
    | .ok _ =>
      let r := TransactionService.createTransaction data userId db
      (r.1, r.2.map fun _ => ())
  | .createLoan data userId =>
    match validateAmountPositive data.principal with
    | .error e => (db, .error e)
    | .ok _ =>
      let r := LoanService.createLoan data userId db
      (r.1, r.2.map fun _ => ())
  | .createLoanPayment data userId =>
    match validateAmountPositive data.amount with
    | .error e => (db, .error e)
    | .ok _ =>
      let r := LoanService.createLoanPayment data userId db
      (r.1, r.2.map fun _ => ())
  | .deleteLoan loanId userId =>
    let r := LoanService.deleteLoan loanId userId db
    (r.1, r.2.map fun _ => ())

end Ledger

namespace Ledger

/-- The signed value of an entry for its wallet: `+amount` for `in`,
`-amount` for `out`. -/
def entrySigned (e : TransactionEntry) : Int :=
  match e.direction with
  | .dirIn => e.amount
  | .dirOut => -e.amount

/-- The signed contribution of one entry to one wallet. -/
def entryDelta (walletId : Nat) (e : TransactionEntry) : Int :=
  if e.walletId = walletId then entrySigned e else 0

/-- The signed contribution of an entry list to one wallet. -/
def entriesDelta (walletId : Nat) (es : List TransactionEntry) : Int :=
  (es.map (entryDelta walletId)).sum

/-- The signed contribution of a transaction to one wallet: zero once the
transaction is soft-deleted. -/
def txnDelta (walletId : Nat) (t : Txn) : Int :=
  if t.deletedAt = none then entriesDelta walletId t.entries else 0

/-- The signed sum, over the non-deleted transactions of the ledger, of the
entry amounts posted to one wallet. -/
def ledgerSum (ts : List Txn) (walletId : Nat) : Int :=
  (ts.map (txnDelta walletId)).sum

/-- The wallet/ledger invariant: every wallet's `currentBalance` equals its
`openingBalance` plus the signed sum of the entries of non-deleted
transactions posted to it. -/
def WalletLedgerInv (ws : List Wallet) (ts : List Txn) : Prop :=
  ∀ w ∈ ws, w.currentBalance = w.openingBalance + ledgerSum ts w.id

/-- `WalletLedgerInv` of a whole store state. -/
def DB.WalletInvariant (db : DB) : Prop :=
  WalletLedgerInv db.wallets db.transactions

/-- Bookkeeping facts the store schema provides: created rows take ids
below the fresh-id counter, and loan/transaction primary keys are unique. -/
def IdBoundsInv (loans : List Loan) (ts : List Txn) (ps : List LoanPayment)
    (nextId : Nat) : Prop :=
  (∀ l ∈ loans, l.id < nextId) ∧
  (∀ t ∈ ts, t.id < nextId ∧ ∀ lid, t.loanId = some lid → lid < nextId) ∧
  (∀ p ∈ ps, p.loanId < nextId) ∧
  (loans.map Loan.id).Nodup ∧
  (ts.map Txn.id).Nodup

/-- `IdBoundsInv` of a whole store state. -/
def DB.IdInvariant (db : DB) : Prop :=
  IdBoundsInv db.loans db.transactions db.loanPayments db.nextId

/-- The entry list of a loan's disbursement transaction: exactly one entry,
in the disbursement direction of the loan's kind, of amount `principal`. -/
def entriesMatchLoan (l : Loan) : List TransactionEntry → Bool
  | [e] => e.direction == LoanService.disbursementDirection l.kind &&
           e.amount == l.principal
  | _ => false

/-- Every live loan owns a live disbursement transaction, and every live
transaction carrying a live loan's back-reference has the disbursement
entry shape for that loan. -/
def LoanTxnLedgerInv (loans : List Loan) (ts : List Txn) : Prop :=
  ∀ l ∈ loans, l.deletedAt = none →
    ((∃ t ∈ ts, t.deletedAt = none ∧ t.loanId = some l.id ∧ t.userId = l.userId) ∧
     (∀ t ∈ ts, t.deletedAt = none → t.loanId = some l.id →
        entriesMatchLoan l t.entries = true))

/-- `LoanTxnLedgerInv` of a whole store state. -/
def DB.LoanTxnInvariant (db : DB) : Prop :=
  LoanTxnLedgerInv db.loans db.transactions

/-- Sum of the recorded payment amounts of one loan. -/
def paymentsSum (ps : List LoanPayment) (loanId : Nat) : Int :=
  ((ps.filter fun p => p.loanId == loanId).map (·.amount)).sum

/-- The loan state-machine invariant: `outstandingAmount` equals
`max 0 (principal − Σ payment amounts)` and `status = closed` exactly when
the outstanding amount is zero. -/
def LoanPaymentsInv (loans : List Loan) (ps : List LoanPayment) : Prop :=
  ∀ l ∈ loans,
    l.outstandingAmount = max 0 (l.principal - paymentsSum ps l.id) ∧
    (l.status = .closed ↔ l.outstandingAmount = 0)

/-- `LoanPaymentsInv` of a whole store state. -/
def DB.LoanStateInvariant (db : DB) : Prop :=
  LoanPaymentsInv db.loans db.loanPayments

/-- The inductive invariant of engine-reachable store states. -/
def DB.Inv (db : DB) : Prop :=
  db.IdInvariant ∧ db.WalletInvariant ∧ db.LoanTxnInvariant ∧
  db.LoanStateInvariant

/-- First wallet with a given id (`findUnique` by primary key), projected to
its current balance. -/
def walletBalanceOf (db : DB) (walletId : Nat) : Option Int :=
  (db.wallets.find? fun w => w.id == walletId).map (·.currentBalance)

end Ledger

namespace Ledger

instance (ws : List Wallet) (ts : List Txn) : Decidable (WalletLedgerInv ws ts) :=
  inferInstanceAs (Decidable (∀ w ∈ ws, _ = _))

instance (db : DB) : Decidable db.WalletInvariant :=
  inferInstanceAs (Decidable (WalletLedgerInv _ _))

instance (loans : List Loan) (ts : List Txn) (ps : List LoanPayment)
    (nextId : Nat) : Decidable (IdBoundsInv loans ts ps nextId) :=
  inferInstanceAs (Decidable (_ ∧ _ ∧ _ ∧ _ ∧ _))

instance (db : DB) : Decidable db.IdInvariant :=
  inferInstanceAs (Decidable (IdBoundsInv _ _ _ _))

instance (loans : List Loan) (ts : List Txn) :
    Decidable (LoanTxnLedgerInv loans ts) :=
  inferInstanceAs (Decidable (∀ l ∈ loans, l.deletedAt = none →
    ((∃ t ∈ ts, t.deletedAt = none ∧ t.loanId = some l.id ∧ t.userId = l.userId) ∧
     (∀ t ∈ ts, t.deletedAt = none → t.loanId = some l.id →
        entriesMatchLoan l t.entries = true))))

instance (db : DB) : Decidable db.LoanTxnInvariant :=
  inferInstanceAs (Decidable (LoanTxnLedgerInv _ _))

instance (loans : List Loan) (ps : List LoanPayment) :
    Decidable (LoanPaymentsInv loans ps) :=
  inferInstanceAs (Decidable (∀ l ∈ loans, _ = _ ∧ (_ ↔ _)))

instance (db : DB) : Decidable db.LoanStateInvariant :=
  inferInstanceAs (Decidable (LoanPaymentsInv _ _))

instance (db : DB) : Decidable db.Inv :=
  inferInstanceAs (Decidable (_ ∧ _ ∧ _ ∧ _))

end Ledger

namespace Ledger

/-- Apply, wallet-table-wide, the balance updates of a list of entries (one
`walletIncrement` per entry, in order, as the services do). -/
def applyEntries (ws : List Wallet) (es : List TransactionEntry) : List Wallet :=
  es.foldl (fun acc e => walletIncrement acc e.walletId (entrySigned e)) ws

theorem ledgerSum_append (ts : List Txn) (t : Txn) (wid : Nat) :
    ledgerSum (ts ++ [t]) wid = ledgerSum ts wid + txnDelta wid t := by
  simp [ledgerSum]

theorem entriesDelta_cons (wid : Nat) (e : TransactionEntry)
    (es : List TransactionEntry) :
    entriesDelta wid (e :: es) = entryDelta wid e + entriesDelta wid es := by
  simp [entriesDelta]

theorem applyEntries_eq (es : List TransactionEntry) (ws : List Wallet) :
    applyEntries ws es = ws.map fun w =>
      { w with currentBalance := w.currentBalance + entriesDelta w.id es } := by
  induction es generalizing ws with
  | nil =>
    show ws = _
    rw [show (fun w : Wallet =>
        { w with currentBalance := w.currentBalance + entriesDelta w.id [] }) =
        fun w => w from funext fun w => by
          simp [entriesDelta]]
    simp
  | cons e es ih =>
    show applyEntries (walletIncrement ws e.walletId (entrySigned e)) es = _
    rw [ih, walletIncrement, List.map_map]
    refine List.map_congr_left fun w _ => ?_
    cases w with
    | mk wId wUser wOpen wCur wArch =>
      by_cases h : wId = e.walletId
      · simp [Function.comp, h, entriesDelta_cons, entryDelta, entrySigned]
        omega
      · simp [Function.comp, h, entriesDelta_cons, entryDelta, Ne.symm h]

end Ledger

namespace Ledger

/-- Posting a fresh (non-deleted) transaction together with one balance
update per entry preserves the wallet/ledger invariant. -/
theorem walletLedgerInv_append (ws : List Wallet) (ts : List Txn) (t : Txn)
    (hdel : t.deletedAt = none) (h : WalletLedgerInv ws ts) :
    WalletLedgerInv (applyEntries ws t.entries) (ts ++ [t]) := by
  intro w' hw'
  rw [applyEntries_eq] at hw'
  obtain ⟨w, hw, rfl⟩ := List.mem_map.1 hw'
  have hbal := h w hw
  simp only [ledgerSum_append, txnDelta, hdel, if_pos rfl]
  simp
  omega

/-- Soft-deleting a transaction whose id is absent from a list leaves the
list unchanged. -/
theorem txnSoftDelete_of_not_mem (ts : List Txn) (tid now : Nat)
    (h : ∀ t ∈ ts, t.id ≠ tid) : txnSoftDelete ts tid now = ts := by
  unfold txnSoftDelete
  rw [show ts.map _ = ts.map id from
    List.map_congr_left fun t ht => by simp [h t ht]]
  simp

/-- Soft-deleting one (currently live) transaction removes exactly its
contribution from every wallet's ledger sum, provided transaction ids are
unique. -/
theorem ledgerSum_softDelete (ts : List Txn) (t0 : Txn) (wid now : Nat)
    (h0 : t0 ∈ ts) (hnd : (ts.map Txn.id).Nodup) (hdel : t0.deletedAt = none) :
    ledgerSum (txnSoftDelete ts t0.id now) wid =
      ledgerSum ts wid - entriesDelta wid t0.entries := by
  induction ts with
  | nil => cases h0
  | cons a ts ih =>
    rw [List.map_cons, List.nodup_cons] at hnd
    rcases List.mem_cons.1 h0 with rfl | hmem
    · have hrest : txnSoftDelete ts t0.id now = ts :=
        txnSoftDelete_of_not_mem ts t0.id now fun t ht hid =>
          hnd.1 (hid ▸ List.mem_map_of_mem Txn.id ht)
      simp only [txnSoftDelete, List.map_cons, beq_self_eq_true, if_pos]
      rw [show ts.map _ = txnSoftDelete ts t0.id now from rfl, hrest]
      simp [ledgerSum, txnDelta, hdel]
    · have hne : a.id ≠ t0.id := fun hid =>
        hnd.1 (hid ▸ List.mem_map_of_mem Txn.id hmem)
      simp only [txnSoftDelete, List.map_cons]
      rw [if_neg (by simp [hne])]
      have := ih hmem hnd.2
      simp only [txnSoftDelete] at this
      simp only [ledgerSum, List.map_cons, List.sum_cons] at *
      omega

/-- Reversing one live single-entry transaction (negated balance update on
its wallet, soft delete of the transaction) preserves the wallet/ledger
invariant, provided transaction ids are unique. -/
theorem walletLedgerInv_reverse (ws : List Wallet) (ts : List Txn) (t0 : Txn)
    (e : TransactionEntry) (now : Nat) (he : t0.entries = [e])
    (h0 : t0 ∈ ts) (hnd : (ts.map Txn.id).Nodup) (hdel : t0.deletedAt = none)
    (h : WalletLedgerInv ws ts) :
    WalletLedgerInv (walletIncrement ws e.walletId (-entrySigned e))
      (txnSoftDelete ts t0.id now) := by
  intro w' hw'
  obtain ⟨w, hw, rfl⟩ := List.mem_map.1 hw'
  have hbal := h w hw
  have hsum := ledgerSum_softDelete ts t0 w.id now h0 hnd hdel
  rw [he] at hsum
  by_cases hid : w.id = e.walletId
  · simp only [hid, beq_self_eq_true, if_pos]
    simp [hsum, entriesDelta, entryDelta, hid.symm]
    omega
  · rw [if_neg (by simp [hid])]
    simp [hsum, entriesDelta, entryDelta, Ne.symm hid]
    omega

end Ledger

namespace Ledger.TransactionService

open Ledger

/-- The income transaction `createIncomeTransaction` posts. -/
def incomeTxn (walletId categoryId transactionDate : Nat) (amount : Int)
    (note : Option String) (userId : Nat) (db : DB) : Txn :=
  { id := db.nextId, userId, ttype := .income, transactionDate
    categoryId := some categoryId, amount, note, loanId := none
    deletedAt := none
    entries := [⟨walletId, .dirIn, amount⟩] }

theorem createIncome_cases (walletId categoryId transactionDate : Nat)
    (amount : Int) (note : Option String) (userId : Nat) (db : DB) :
    (∃ e, createIncomeTransaction walletId categoryId transactionDate amount
        note userId db = (db, .error e)) ∨
    createIncomeTransaction walletId categoryId transactionDate amount
        note userId db =
      ({ db with
          wallets := walletIncrement db.wallets walletId amount
          transactions := db.transactions ++
            [incomeTxn walletId categoryId transactionDate amount note userId db]
          nextId := db.nextId + 1 },
       .ok (incomeTxn walletId categoryId transactionDate amount note userId db)) := by
  unfold createIncomeTransaction
  split
  · exact Or.inl ⟨_, rfl⟩
  · split
    · exact Or.inl ⟨_, rfl⟩
    · exact Or.inr rfl

end Ledger.TransactionService

namespace Ledger.TransactionService

open Ledger

/-- The expense transaction `createExpenseTransaction` posts. -/
def expenseTxn (walletId categoryId transactionDate : Nat) (amount : Int)
    (note : Option String) (userId : Nat) (db : DB) : Txn :=
  { id := db.nextId, userId, ttype := .expense, transactionDate
    categoryId := some categoryId, amount, note, loanId := none
    deletedAt := none
    entries := [⟨walletId, .dirOut, amount⟩] }

theorem createExpense_cases (walletId categoryId transactionDate : Nat)
    (amount : Int) (note : Option String) (userId : Nat) (db : DB) :
    (∃ e, createExpenseTransaction walletId categoryId transactionDate amount
        note userId db = (db, .error e)) ∨
    createExpenseTransaction walletId categoryId transactionDate amount
        note userId db =
      ({ db with
          wallets := walletIncrement db.wallets walletId (-amount)
          transactions := db.transactions ++
            [expenseTxn walletId categoryId transactionDate amount note userId db]
          nextId := db.nextId + 1 },
       .ok (expenseTxn walletId categoryId transactionDate amount note userId db)) := by
  unfold createExpenseTransaction
  split
  · exact Or.inl ⟨_, rfl⟩
  split
  · exact Or.inl ⟨_, rfl⟩
  unfold prismaTransaction
  split
  case _ db2 t heq =>
    simp only [] at heq
    split at heq
    · exact absurd heq (by simp)
    · split at heq
      · exact absurd heq (by simp)
      · simp only [Except.ok.injEq, Prod.mk.injEq] at heq
        obtain ⟨rfl, rfl⟩ := heq
        exact Or.inr rfl
  case _ e heq => exact Or.inl ⟨_, rfl⟩

end Ledger.TransactionService

namespace Ledger.TransactionService

open Ledger

/-- The transfer transaction `createTransferTransaction` posts. -/
def transferTxn (fromWalletId toWalletId transactionDate : Nat) (amount : Int)
    (note : Option String) (userId : Nat) (db : DB) : Txn :=
  { id := db.nextId, userId, ttype := .transfer, transactionDate
    categoryId := none, amount, note, loanId := none
    deletedAt := none
    entries := [⟨fromWalletId, .dirOut, amount⟩, ⟨toWalletId, .dirIn, amount⟩] }

theorem createTransfer_cases (fromWalletId toWalletId transactionDate : Nat)
    (amount : Int) (note : Option String) (userId : Nat) (db : DB) :
    (∃ e, createTransferTransaction fromWalletId toWalletId transactionDate
        amount note userId db = (db, .error e)) ∨
    createTransferTransaction fromWalletId toWalletId transactionDate amount
        note userId db =
      ({ db with
          wallets := walletIncrement
            (walletIncrement db.wallets fromWalletId (-amount)) toWalletId amount
          transactions := db.transactions ++
            [transferTxn fromWalletId toWalletId transactionDate amount note userId db]
          nextId := db.nextId + 1 },
       .ok (transferTxn fromWalletId toWalletId transactionDate amount note
              userId db)) := by
  unfold createTransferTransaction
  split
  · exact Or.inl ⟨_, rfl⟩
  split
  · exact Or.inl ⟨_, rfl⟩
  split
  · exact Or.inl ⟨_, rfl⟩
  unfold prismaTransaction
  split
  case _ db2 t heq =>
    simp only [] at heq
    split at heq
    · exact absurd heq (by simp)
    · split at heq
      · exact absurd heq (by simp)
      · simp only [Except.ok.injEq, Prod.mk.injEq] at heq
        obtain ⟨rfl, rfl⟩ := heq
        exact Or.inr rfl
  case _ e heq => exact Or.inl ⟨_, rfl⟩

end Ledger.TransactionService

namespace Ledger.LoanService

open Ledger

/-- The loan row `createLoan` creates. -/
def loanRow (data : CreateLoanData) (userId : Nat) (db : DB) : Loan :=
  { id := db.nextId, userId, kind := data.kind
    counterpartyName := data.counterpartyName
    principal := data.principal, outstandingAmount := data.principal
    startDate := data.startDate, dueDate := data.dueDate
    note := data.note, status := .opened, deletedAt := none }

/-- The disbursement transaction `createLoan` posts. -/
def disbursementTxn (data : CreateLoanData) (userId : Nat) (db : DB) : Txn :=
  { id := db.nextId + 1, userId, ttype := disbursementType data.kind
    transactionDate := data.startDate
    categoryId := defaultCategoryId db userId (disbursementType data.kind)
      (disbursementCategoryName data.kind)
    amount := data.principal, note := data.note
    loanId := some db.nextId, deletedAt := none
    entries := [⟨data.walletId, disbursementDirection data.kind, data.principal⟩] }

theorem createLoan_cases (data : CreateLoanData) (userId : Nat) (db : DB) :
    (∃ e, createLoan data userId db = (db, .error e)) ∨
    createLoan data userId db =
      ({ db with
          wallets := walletIncrement db.wallets data.walletId
            (if data.kind = .you_owe then data.principal else -data.principal)
          transactions := db.transactions ++ [disbursementTxn data userId db]
          loans := db.loans ++ [loanRow data userId db]
          nextId := db.nextId + 2 },
       .ok (loanRow data userId db)) := by
  unfold createLoan
  split
  · exact Or.inl ⟨_, rfl⟩
  split
  · exact Or.inl ⟨_, rfl⟩
  exact Or.inr rfl

end Ledger.LoanService

namespace Ledger.LoanService

open Ledger

theorem validateLoanOwnership_ok {db : DB} {loanId userId : Nat} {loan : Loan}
    (h : validateLoanOwnership db loanId userId = .ok loan) :
    loanFind db loanId userId = some loan ∧ loan.status ≠ .closed := by
  unfold validateLoanOwnership at h
  split at h
  · exact absurd h (by simp)
  case _ l heq =>
    split at h
    · exact absurd h (by simp)
    case _ hst =>
      simp only [Except.ok.injEq] at h
      subst h
      exact ⟨heq, hst⟩

/-- The repayment transaction `createLoanPayment` posts. -/
def repaymentTxn (data : CreateLoanPaymentData) (loan : Loan) (userId : Nat)
    (db : DB) : Txn :=
  { id := db.nextId, userId, ttype := repaymentType loan.kind
    transactionDate := data.paymentDate
    categoryId := defaultCategoryId db userId (repaymentType loan.kind)
      (repaymentCategoryName loan.kind)
    amount := data.amount, note := data.note
    loanId := none, deletedAt := none
    entries := [⟨data.walletId, repaymentDirection loan.kind, data.amount⟩] }

/-- The `LoanPayment` row `createLoanPayment` creates. -/
def paymentRow (data : CreateLoanPaymentData) (userId : Nat) (db : DB) :
    LoanPayment :=
  { id := db.nextId + 1, loanId := data.loanId, userId
    walletId := data.walletId, transactionId := db.nextId
    paymentDate := data.paymentDate, amount := data.amount, note := data.note }

/-- The store state after a successful `createLoanPayment` against the
pre-state `db`, where `loan` is the loan row read before the transaction. -/
def paymentState (data : CreateLoanPaymentData) (loan : Loan) (userId : Nat)
    (db : DB) : DB :=
  { db with
      transactions := db.transactions ++ [repaymentTxn data loan userId db]
      loanPayments := db.loanPayments ++ [paymentRow data userId db]
      wallets := (walletIncrement db.wallets data.walletId
        (if loan.kind = .you_owe then -data.amount else data.amount))
      loans := (db.loans.map fun l =>
        if l.id == data.loanId then
          { l with
              outstandingAmount := max 0 (loan.outstandingAmount - data.amount)
              status := if loan.outstandingAmount - data.amount ≤ 0 then
                  LoanStatus.closed else LoanStatus.opened }
        else l)
      nextId := db.nextId + 2 }

theorem createLoanPayment_cases (data : CreateLoanPaymentData) (userId : Nat)
    (db : DB) :
    (∃ e, createLoanPayment data userId db = (db, .error e)) ∨
    ∃ loan, loanFind db data.loanId userId = some loan ∧
      loan.status ≠ .closed ∧ ¬ data.amount > loan.outstandingAmount ∧
      createLoanPayment data userId db =
        (paymentState data loan userId db, .ok (paymentRow data userId db)) := by
  unfold createLoanPayment
  split
  · exact Or.inl ⟨_, rfl⟩
  case _ loan heq =>
    obtain ⟨hfind, hst⟩ := validateLoanOwnership_ok heq
    split
    · exact Or.inl ⟨_, rfl⟩
    case _ hamt =>
      split
      · exact Or.inl ⟨_, rfl⟩
      · refine Or.inr ⟨loan, hfind, hst, hamt, ?_⟩
        refine prismaTransaction_ok db _ _ _ ?_
        unfold paymentState paymentRow repaymentTxn
        rfl

/-- `prisma.transaction.findFirst({ where: { userId, deletedAt: null,
loanId } })`: the disbursement transaction linked to a loan. -/
def txnBaseFind (db : DB) (userId loanId : Nat) : Option Txn :=
  db.transactions.find? fun t =>
    t.userId == userId && t.deletedAt == none && t.loanId == some loanId

/-- Soft delete of the loan with the given id. -/
def loanSoftDelete (loans : List Loan) (loanId now : Nat) : List Loan :=
  loans.map fun l =>
    if l.id == loanId then { l with deletedAt := some now } else l

theorem deleteLoan_cases (loanId userId : Nat) (db : DB) :
    (∃ e, deleteLoan loanId userId db = (db, .error e)) ∨
    ∃ loan, loanFind db loanId userId = some loan ∧
      (db.loanPayments.any fun p => p.loanId == loan.id) = false ∧
      deleteLoan loanId userId db =
        ((match txnBaseFind db userId loan.id with
          | some bt =>
            match bt.entries with
            | [entry] =>
              { db with
                  wallets := (walletIncrement db.wallets entry.walletId
                    (if loan.kind = .you_owe then -loan.principal
                     else loan.principal))
                  transactions := txnSoftDelete db.transactions bt.id db.now
                  loans := loanSoftDelete db.loans loanId db.now }
            | _ => { db with loans := loanSoftDelete db.loans loanId db.now }
          | none => { db with loans := loanSoftDelete db.loans loanId db.now }),
         .ok { loan with deletedAt := some db.now }) := by
  unfold deleteLoan prismaTransaction
  split
  case _ db2 t heq =>
    simp only [] at heq
    split at heq
    · exact absurd heq (by simp)
    case _ loan hfind =>
      split at heq
      · exact absurd heq (by simp)
      case _ hpay =>
        refine Or.inr ⟨loan, hfind, by simpa using hpay, ?_⟩
        simp only [Except.ok.injEq, Prod.mk.injEq] at heq
        obtain ⟨rfl, rfl⟩ := heq
        unfold txnBaseFind loanSoftDelete
        rcases hbt : List.find?
            (fun t => t.userId == userId && t.deletedAt == none &&
              t.loanId == some loan.id) db.transactions with _ | bt
        · rw [hbt]
        · rcases hent : bt.entries with _ | ⟨entry, rest⟩
          · simp only [hbt, hent]
          · rcases rest with _ | ⟨e2, rest2⟩
            · simp only [hbt, hent]
            · simp only [hbt, hent]
  case _ e heq => exact Or.inl ⟨_, rfl⟩

end Ledger.LoanService

namespace Ledger

theorem ids_nodup_append {α} (f : α → Nat) (l : List α) (n : Nat) (a : α)
    (h : ∀ x ∈ l, f x < n) (hnd : (l.map f).Nodup) (ha : n ≤ f a) :
    ((l ++ [a]).map f).Nodup := by
  rw [List.map_append]
  refine hnd.append (List.nodup_singleton _) ?_
  intro x hx hx'
  obtain ⟨y, hy, rfl⟩ := List.mem_map.1 hx
  have h1 := h y hy
  simp only [List.map_cons, List.map_nil, List.mem_singleton] at hx'
  omega

theorem map_proj_map {α β} (f : α → α) (g : α → β) (l : List α)
    (h : ∀ x, g (f x) = g x) : (l.map f).map g = l.map g := by
  rw [List.map_map]
  exact List.map_congr_left fun x _ => h x

theorem mem_of_nodup_ids {α} (f : α → Nat) (l : List α) {x y : α}
    (hnd : (l.map f).Nodup) (hx : x ∈ l) (hy : y ∈ l) (hxy : f x = f y) :
    x = y :=
  List.inj_on_of_nodup_map hnd hx hy hxy

theorem paymentsSum_zero (ps : List LoanPayment) (lid : Nat)
    (h : ∀ p ∈ ps, p.loanId ≠ lid) : paymentsSum ps lid = 0 := by
  unfold paymentsSum
  rw [List.filter_eq_nil_iff.2 fun p hp => by simp [h p hp]]
  rfl

theorem paymentsSum_append (ps : List LoanPayment) (p : LoanPayment)
    (lid : Nat) :
    paymentsSum (ps ++ [p]) lid =
      paymentsSum ps lid + (if p.loanId = lid then p.amount else 0) := by
  unfold paymentsSum
  rw [List.filter_append]
  by_cases h : p.loanId = lid
  · simp [h]
  · simp [h]

theorem entriesMatchLoan_congr (l l' : Loan) (hk : l'.kind = l.kind)
    (hp : l'.principal = l.principal) (es : List TransactionEntry) :
    entriesMatchLoan l' es = entriesMatchLoan l es := by
  cases es with
  | nil => rfl
  | cons e rest =>
    cases rest with
    | nil => simp [entriesMatchLoan, hk, hp]
    | cons e2 rest2 => rfl

end Ledger

namespace Ledger

/-- `IdBoundsInv` after appending one transaction and advancing the id
counter by `k`. -/
theorem idBoundsInv_append_txn (loans : List Loan) (ts : List Txn)
    (ps : List LoanPayment) (nextId k : Nat) (t : Txn)
    (h : IdBoundsInv loans ts ps nextId)
    (hida : nextId ≤ t.id) (hidb : t.id < nextId + k)
    (hlid : ∀ lid, t.loanId = some lid → lid < nextId + k) :
    IdBoundsInv loans (ts ++ [t]) ps (nextId + k) := by
  obtain ⟨h1, h2, h3, h4, h5⟩ := h
  refine ⟨fun l hl => by have := h1 l hl; omega, ?_,
    fun p hp => by have := h3 p hp; omega, h4, ?_⟩
  · intro t' ht'
    rcases List.mem_append.1 ht' with h' | h'
    · obtain ⟨ha, hb⟩ := h2 t' h'
      exact ⟨by omega, fun lid hl => by have := hb lid hl; omega⟩
    · rw [List.mem_singleton] at h'
      subst h'
      exact ⟨hidb, hlid⟩
  · exact ids_nodup_append Txn.id ts nextId t (fun x hx => (h2 x hx).1) h5 hida

/-- `IdBoundsInv` after `createLoan`: a loan at `nextId`, its disbursement
transaction at `nextId + 1`, counter advanced by 2. -/
theorem idBoundsInv_append_loan_txn (loans : List Loan) (ts : List Txn)
    (ps : List LoanPayment) (nextId : Nat) (nl : Loan) (t : Txn)
    (h : IdBoundsInv loans ts ps nextId)
    (hl : nl.id = nextId) (ht : t.id = nextId + 1)
    (htl : t.loanId = some nextId) :
    IdBoundsInv (loans ++ [nl]) (ts ++ [t]) ps (nextId + 2) := by
  obtain ⟨h1, h2, h3, h4, h5⟩ := h
  refine ⟨?_, ?_, fun p hp => by have := h3 p hp; omega, ?_, ?_⟩
  · intro l hl'
    rcases List.mem_append.1 hl' with h' | h'
    · have := h1 l h'; omega
    · rw [List.mem_singleton] at h'; subst h'; omega
  · intro t' ht'
    rcases List.mem_append.1 ht' with h' | h'
    · obtain ⟨ha, hb⟩ := h2 t' h'
      exact ⟨by omega, fun lid hll => by have := hb lid hll; omega⟩
    · rw [List.mem_singleton] at h'
      subst h'
      refine ⟨by omega, fun lid hll => ?_⟩
      rw [htl] at hll
      cases hll
      omega
  · exact ids_nodup_append Loan.id loans nextId nl h1 h4 (by omega)
  · exact ids_nodup_append Txn.id ts nextId t (fun x hx => (h2 x hx).1) h5
      (by omega)

/-- `IdBoundsInv` after `createLoanPayment`: one transaction and one payment
row appended, the loan table rewritten id-preservingly, counter advanced
by 2. -/
theorem idBoundsInv_payment (loans : List Loan) (ts : List Txn)
    (ps : List LoanPayment) (nextId : Nat) (t : Txn) (p : LoanPayment)
    (updFn : Loan → Loan) (h : IdBoundsInv loans ts ps nextId)
    (ht : t.id = nextId) (htl : t.loanId = none) (hp : p.loanId < nextId)
    (hupd : ∀ l, (updFn l).id = l.id) :
    IdBoundsInv (loans.map updFn) (ts ++ [t]) (ps ++ [p]) (nextId + 2) := by
  obtain ⟨h1, h2, h3, h4, h5⟩ := h
  refine ⟨?_, ?_, ?_, ?_, ?_⟩
  · intro l hl
    obtain ⟨l0, hl0, rfl⟩ := List.mem_map.1 hl
    have := h1 l0 hl0
    rw [hupd l0]
    omega
  · intro t' ht'
    rcases List.mem_append.1 ht' with h' | h'
    · obtain ⟨ha, hb⟩ := h2 t' h'
      exact ⟨by omega, fun lid hll => by have := hb lid hll; omega⟩
    · rw [List.mem_singleton] at h'
      subst h'
      refine ⟨by omega, fun lid hll => ?_⟩
      rw [htl] at hll
      cases hll
  · intro p' hp'
    rcases List.mem_append.1 hp' with h' | h'
    · have := h3 p' h'; omega
    · rw [List.mem_singleton] at h'; subst h'; omega
  · rw [map_proj_map updFn Loan.id loans hupd]
    exact h4
  · exact ids_nodup_append Txn.id ts nextId t (fun x hx => (h2 x hx).1) h5
      (by omega)

/-- `IdBoundsInv` after `deleteLoan`: loans and transactions rewritten by
id- and back-reference-preserving updates. -/
theorem idBoundsInv_delete (loans : List Loan) (ts : List Txn)
    (ps : List LoanPayment) (nextId : Nat) (updL : Loan → Loan)
    (updT : Txn → Txn) (h : IdBoundsInv loans ts ps nextId)
    (hL : ∀ l, (updL l).id = l.id)
    (hT : ∀ t, (updT t).id = t.id ∧ (updT t).loanId = t.loanId) :
    IdBoundsInv (loans.map updL) (ts.map updT) ps nextId := by
  obtain ⟨h1, h2, h3, h4, h5⟩ := h
  refine ⟨?_, ?_, h3, ?_, ?_⟩
  · intro l hl
    obtain ⟨l0, hl0, rfl⟩ := List.mem_map.1 hl
    rw [hL l0]
    exact h1 l0 hl0
  · intro t' ht'
    obtain ⟨t0, ht0, rfl⟩ := List.mem_map.1 ht'
    obtain ⟨ha, hb⟩ := h2 t0 ht0
    rw [(hT t0).1, (hT t0).2]
    exact ⟨ha, hb⟩
  · rw [map_proj_map updL Loan.id loans hL]
    exact h4
  · rw [map_proj_map updT Txn.id ts fun t => (hT t).1]
    exact h5

end Ledger

namespace Ledger

/-- `LoanTxnLedgerInv` after appending a transaction with no loan
back-reference and rewriting loans by an update preserving id, deletion
mark, kind, principal and owner. -/
theorem loanTxnInv_append_nonloan (loans : List Loan) (ts : List Txn)
    (t : Txn) (updFn : Loan → Loan) (h : LoanTxnLedgerInv loans ts)
    (hnl : t.loanId = none)
    (hupd : ∀ l, (updFn l).id = l.id ∧ (updFn l).deletedAt = l.deletedAt ∧
      (updFn l).kind = l.kind ∧ (updFn l).principal = l.principal ∧
      (updFn l).userId = l.userId) :
    LoanTxnLedgerInv (loans.map updFn) (ts ++ [t]) := by
  intro l' hl' hld
  obtain ⟨l, hl, rfl⟩ := List.mem_map.1 hl'
  obtain ⟨hid, hdel, hkind, hprin, huser⟩ := hupd l
  rw [hdel] at hld
  obtain ⟨⟨t0, ht0, h0d, h0l, h0u⟩, hall⟩ := h l hl hld
  constructor
  · exact ⟨t0, List.mem_append_left _ ht0, h0d, by rw [hid]; exact h0l,
      by rw [huser]; exact h0u⟩
  · intro t' ht' htd' htl'
    rw [hid] at htl'
    rcases List.mem_append.1 ht' with h1 | h1
    · rw [entriesMatchLoan_congr l (updFn l) hkind hprin]
      exact hall t' h1 htd' htl'
    · rw [List.mem_singleton] at h1
      subst h1
      rw [hnl] at htl'
      cases htl'

/-- `LoanTxnLedgerInv` after `createLoan`: a fresh loan and its matching
disbursement transaction appended together. -/
theorem loanTxnInv_createLoan (loans : List Loan) (ts : List Txn)
    (nl : Loan) (nt : Txn) (h : LoanTxnLedgerInv loans ts)
    (hfreshL : ∀ l ∈ loans, l.id ≠ nl.id)
    (hfreshT : ∀ t ∈ ts, ∀ lid, t.loanId = some lid → lid ≠ nl.id)
    (hntd : nt.deletedAt = none) (hntl : nt.loanId = some nl.id)
    (hntu : nt.userId = nl.userId)
    (hmatch : entriesMatchLoan nl nt.entries = true) :
    LoanTxnLedgerInv (loans ++ [nl]) (ts ++ [nt]) := by
  intro l hl hld
  rcases List.mem_append.1 hl with hold | hnew
  · obtain ⟨⟨t0, ht0, h0d, h0l, h0u⟩, hall⟩ := h l hold hld
    constructor
    · exact ⟨t0, List.mem_append_left _ ht0, h0d, h0l, h0u⟩
    · intro t' ht' htd' htl'
      rcases List.mem_append.1 ht' with h1 | h1
      · exact hall t' h1 htd' htl'
      · rw [List.mem_singleton] at h1
        subst h1
        rw [hntl] at htl'
        exact absurd (Option.some.inj htl').symm (hfreshL l hold)
  · rw [List.mem_singleton] at hnew
    subst hnew
    constructor
    · exact ⟨nt, List.mem_append_right _ (List.mem_singleton.2 rfl), hntd,
        hntl, hntu⟩
    · intro t' ht' htd' htl'
      rcases List.mem_append.1 ht' with h1 | h1
      · exact absurd rfl (hfreshT t' h1 l.id htl')
      · rw [List.mem_singleton] at h1
        subst h1
        exact hmatch

/-- `LoanTxnLedgerInv` after the main path of `deleteLoan`: the loan and
its disbursement transaction soft-deleted together. -/
theorem loanTxnInv_delete_main (loans : List Loan) (ts : List Txn)
    (loan : Loan) (bt : Txn) (now : Nat) (h : LoanTxnLedgerInv loans ts)
    (hndT : (ts.map Txn.id).Nodup)
    (hbt : bt ∈ ts) (hbtl : bt.loanId = some loan.id) :
    LoanTxnLedgerInv (LoanService.loanSoftDelete loans loan.id now)
      (txnSoftDelete ts bt.id now) := by
  intro l' hl' hld
  obtain ⟨l, hl, rfl⟩ := List.mem_map.1 hl'
  by_cases hid : l.id = loan.id
  · rw [if_pos (by simp [hid])] at hld ⊢
    cases hld
  · rw [if_neg (by simp [hid])] at hld ⊢
    obtain ⟨⟨t0, ht0, h0d, h0l, h0u⟩, hall⟩ := h l hl hld
    have h0ne : t0.id ≠ bt.id := by
      intro he
      have : t0 = bt := mem_of_nodup_ids Txn.id ts hndT ht0 hbt he
      subst this
      rw [h0l] at hbtl
      exact hid (Option.some.inj hbtl)
    constructor
    · refine ⟨if t0.id == bt.id then { t0 with deletedAt := some now } else t0,
        List.mem_map_of_mem _ ht0, ?_⟩
      rw [if_neg (by simp [h0ne])]
      exact ⟨h0d, h0l, h0u⟩
    · intro t' ht' htd' htl'
      obtain ⟨t1, ht1, rfl⟩ := List.mem_map.1 ht'
      by_cases h1 : t1.id = bt.id
      · rw [if_pos (by simp [h1])] at htd'
        cases htd'
      · rw [if_neg (by simp [h1])] at htd' htl' ⊢
        exact hall t1 ht1 htd' htl'

/-- `LoanTxnLedgerInv` after the fallback path of `deleteLoan`: only the
loan is soft-deleted. -/
theorem loanTxnInv_delete_fallback (loans : List Loan) (ts : List Txn)
    (loanId now : Nat) (h : LoanTxnLedgerInv loans ts) :
    LoanTxnLedgerInv (LoanService.loanSoftDelete loans loanId now) ts := by
  intro l' hl' hld
  obtain ⟨l, hl, rfl⟩ := List.mem_map.1 hl'
  by_cases hid : l.id = loanId
  · rw [if_pos (by simp [hid])] at hld
    cases hld
  · rw [if_neg (by simp [hid])] at hld ⊢
    exact h l hl hld

end Ledger

namespace Ledger

/-- `LoanPaymentsInv` is unaffected by loan-table rewrites that keep id,
outstanding amount, principal and status. -/
theorem loanPaymentsInv_map (loans : List Loan) (ps : List LoanPayment)
    (updFn : Loan → Loan) (h : LoanPaymentsInv loans ps)
    (hupd : ∀ l, (updFn l).id = l.id ∧
      (updFn l).outstandingAmount = l.outstandingAmount ∧
      (updFn l).principal = l.principal ∧ (updFn l).status = l.status) :
    LoanPaymentsInv (loans.map updFn) ps := by
  intro l' hl'
  obtain ⟨l, hl, rfl⟩ := List.mem_map.1 hl'
  obtain ⟨hid, hout, hprin, hst⟩ := hupd l
  rw [hid, hout, hprin, hst]
  exact h l hl

/-- `LoanPaymentsInv` after `createLoan`: a fresh open loan with
`outstandingAmount = principal > 0` and no recorded payment. -/
theorem loanPaymentsInv_createLoan (loans : List Loan) (ps : List LoanPayment)
    (nl : Loan) (h : LoanPaymentsInv loans ps)
    (hout : nl.outstandingAmount = nl.principal) (hst : nl.status = .opened)
    (hpos : 0 < nl.principal) (hfresh : ∀ p ∈ ps, p.loanId ≠ nl.id) :
    LoanPaymentsInv (loans ++ [nl]) ps := by
  intro l hl
  rcases List.mem_append.1 hl with hold | hnew
  · exact h l hold
  · rw [List.mem_singleton] at hnew
    subst hnew
    rw [paymentsSum_zero ps _ hfresh, hout, hst]
    constructor
    · omega
    · constructor
      · intro hc; cases hc
      · intro hc; omega

/-- `LoanPaymentsInv` after `createLoanPayment`: the paid loan's outstanding
amount is clamp-decremented and its status recomputed, one payment row is
appended. -/
theorem loanPaymentsInv_payment (loans : List Loan) (ps : List LoanPayment)
    (loan : Loan) (p : LoanPayment) (key : Nat) (amt : Int)
    (h : LoanPaymentsInv loans ps) (hnd : (loans.map Loan.id).Nodup)
    (hloan : loan ∈ loans) (hkey : loan.id = key)
    (hplid : p.loanId = key) (hpamt : p.amount = amt)
    (hopen : loan.status ≠ .closed) (hamt : amt ≤ loan.outstandingAmount) :
    LoanPaymentsInv
      (loans.map fun l => if l.id == key then
        { l with
            outstandingAmount := max 0 (loan.outstandingAmount - amt)
            status := if loan.outstandingAmount - amt ≤ 0 then
                LoanStatus.closed else LoanStatus.opened }
        else l)
      (ps ++ [p]) := by
  intro l' hl'
  obtain ⟨l, hl, rfl⟩ := List.mem_map.1 hl'
  obtain ⟨hsum, hiff⟩ := h l hl
  by_cases hid : l.id = key
  · have hll : l = loan := mem_of_nodup_ids Loan.id loans hnd hl hloan
      (by rw [hid, hkey])
    subst hll
    rw [if_pos (by simp [hid])]
    have hpos : l.outstandingAmount ≠ 0 := fun hz => hopen (hiff.2 hz)
    have houtval : l.outstandingAmount = l.principal - paymentsSum ps l.id := by
      rcases max_cases (0 : Int) (l.principal - paymentsSum ps l.id) with
        ⟨h1, _⟩ | ⟨h1, _⟩
      · exact absurd (hsum.trans h1) hpos
      · exact hsum.trans h1
    have hcond : p.loanId = l.id := by rw [hplid, hid]
    constructor
    · show max 0 (l.outstandingAmount - amt) =
        max 0 (l.principal - paymentsSum (ps ++ [p]) l.id)
      rw [paymentsSum_append, if_pos hcond, houtval, hpamt]
      congr 1
      omega
    · show (if l.outstandingAmount - amt ≤ 0 then LoanStatus.closed
          else LoanStatus.opened) = LoanStatus.closed ↔
        max 0 (l.outstandingAmount - amt) = 0
      rcases le_or_lt (l.outstandingAmount - amt) 0 with hle | hlt
      · rw [if_pos hle, max_eq_left hle]
        simp
      · rw [if_neg (by omega), max_eq_right hlt.le]
        constructor
        · intro hc
          cases hc
        · intro hc
          omega
  · rw [if_neg (by simp [hid])]
    have hcond : ¬ p.loanId = l.id := by
      rw [hplid]
      exact fun hc => hid hc.symm
    constructor
    · show l.outstandingAmount =
        max 0 (l.principal - paymentsSum (ps ++ [p]) l.id)
      rw [paymentsSum_append, if_neg hcond, add_zero]
      exact hsum
    · exact hiff

end Ledger

namespace Ledger

theorem walletFind_spec {db : DB} {walletId userId : Nat} {w : Wallet}
    (h : walletFind db walletId userId = some w) :
    w ∈ db.wallets ∧ w.id = walletId ∧ w.userId = userId ∧
      w.isArchived = false := by
  have hm := List.mem_of_find?_eq_some h
  have hp := List.find?_some h
  simp only [Bool.and_eq_true, beq_iff_eq, Bool.not_eq_true'] at hp
  exact ⟨hm, hp.1.1, hp.1.2, hp.2⟩

theorem loanFind_spec {db : DB} {loanId userId : Nat} {loan : Loan}
    (h : LoanService.loanFind db loanId userId = some loan) :
    loan ∈ db.loans ∧ loan.id = loanId ∧ loan.userId = userId ∧
      loan.deletedAt = none := by
  have hm := List.mem_of_find?_eq_some h
  have hp := List.find?_some h
  simp only [Bool.and_eq_true, beq_iff_eq] at hp
  exact ⟨hm, hp.1.1, hp.1.2, hp.2⟩

theorem txnBaseFind_spec {db : DB} {userId loanId : Nat} {t : Txn}
    (h : LoanService.txnBaseFind db userId loanId = some t) :
    t ∈ db.transactions ∧ t.userId = userId ∧ t.deletedAt = none ∧
      t.loanId = some loanId := by
  have hm := List.mem_of_find?_eq_some h
  have hp := List.find?_some h
  simp only [Bool.and_eq_true, beq_iff_eq] at hp
  exact ⟨hm, hp.1.1, hp.1.2, hp.2⟩

/-- `LoanTxnLedgerInv` after appending a transaction with no loan
back-reference, loans untouched. -/
theorem loanTxnInv_append_plain (loans : List Loan) (ts : List Txn)
    (t : Txn) (h : LoanTxnLedgerInv loans ts) (hnl : t.loanId = none) :
    LoanTxnLedgerInv loans (ts ++ [t]) := by
  have h2 := loanTxnInv_append_nonloan loans ts t (fun l => l) h hnl
    fun l => ⟨rfl, rfl, rfl, rfl, rfl⟩
  rwa [List.map_id'] at h2

/-- `createIncomeTransaction` preserves the engine invariant. -/
theorem inv_createIncomeTransaction (walletId categoryId transactionDate : Nat)
    (amount : Int) (note : Option String) (userId : Nat) (db : DB)
    (h : db.Inv) :
    (TransactionService.createIncomeTransaction walletId categoryId
      transactionDate amount note userId db).1.Inv := by
  rcases TransactionService.createIncome_cases walletId categoryId
      transactionDate amount note userId db with ⟨e, heq⟩ | heq
  · rw [heq]
    exact h
  · rw [heq]
    obtain ⟨hid, hw, hlt, hls⟩ := h
    refine ⟨?_, ?_, ?_, ?_⟩
    · exact idBoundsInv_append_txn db.loans db.transactions db.loanPayments
        db.nextId 1 (TransactionService.incomeTxn walletId categoryId transactionDate amount note userId db)
        hid (le_refl _) (by show db.nextId < db.nextId + 1; omega)
        (by intro lid hc; cases hc)
    · exact walletLedgerInv_append db.wallets db.transactions
        (TransactionService.incomeTxn walletId categoryId transactionDate amount note userId db) rfl hw
    · exact loanTxnInv_append_plain db.loans db.transactions
        (TransactionService.incomeTxn walletId categoryId transactionDate amount note userId db) hlt rfl
    · exact hls

/-- `createExpenseTransaction` preserves the engine invariant. -/
theorem inv_createExpenseTransaction (walletId categoryId transactionDate : Nat)
    (amount : Int) (note : Option String) (userId : Nat) (db : DB)
    (h : db.Inv) :
    (TransactionService.createExpenseTransaction walletId categoryId
      transactionDate amount note userId db).1.Inv := by
  rcases TransactionService.createExpense_cases walletId categoryId
      transactionDate amount note userId db with ⟨e, heq⟩ | heq
  · rw [heq]
    exact h
  · rw [heq]
    obtain ⟨hid, hw, hlt, hls⟩ := h
    refine ⟨?_, ?_, ?_, ?_⟩
    · exact idBoundsInv_append_txn db.loans db.transactions db.loanPayments
        db.nextId 1 (TransactionService.expenseTxn walletId categoryId transactionDate amount note userId db)
        hid (le_refl _) (by show db.nextId < db.nextId + 1; omega)
        (by intro lid hc; cases hc)
    · exact walletLedgerInv_append db.wallets db.transactions
        (TransactionService.expenseTxn walletId categoryId transactionDate amount note userId db) rfl hw
    · exact loanTxnInv_append_plain db.loans db.transactions
        (TransactionService.expenseTxn walletId categoryId transactionDate amount note userId db) hlt rfl
    · exact hls

/-- `createTransferTransaction` preserves the engine invariant. -/
theorem inv_createTransferTransaction
    (fromWalletId toWalletId transactionDate : Nat) (amount : Int)
    (note : Option String) (userId : Nat) (db : DB) (h : db.Inv) :
    (TransactionService.createTransferTransaction fromWalletId toWalletId
      transactionDate amount note userId db).1.Inv := by
  rcases TransactionService.createTransfer_cases fromWalletId toWalletId
      transactionDate amount note userId db with ⟨e, heq⟩ | heq
  · rw [heq]
    exact h
  · rw [heq]
    obtain ⟨hid, hw, hlt, hls⟩ := h
    refine ⟨?_, ?_, ?_, ?_⟩
    · exact idBoundsInv_append_txn db.loans db.transactions db.loanPayments
        db.nextId 1 (TransactionService.transferTxn fromWalletId toWalletId transactionDate amount note userId db)
        hid (le_refl _) (by show db.nextId < db.nextId + 1; omega)
        (by intro lid hc; cases hc)
    · exact walletLedgerInv_append db.wallets db.transactions
        (TransactionService.transferTxn fromWalletId toWalletId transactionDate amount note userId db) rfl hw
    · exact loanTxnInv_append_plain db.loans db.transactions
        (TransactionService.transferTxn fromWalletId toWalletId transactionDate amount note userId db) hlt rfl
    · exact hls

end Ledger

namespace Ledger

open Ledger.LoanService

/-- `createLoan` (with the validated positive principal) preserves the
engine invariant. -/
theorem inv_createLoan (data : CreateLoanData) (userId : Nat) (db : DB)
    (h : db.Inv) (hpos : 0 < data.principal) :
    (LoanService.createLoan data userId db).1.Inv := by
  obtain ⟨kind, cname, principal, walletId, startDate, dueDate, note⟩ := data
  rcases LoanService.createLoan_cases
      ⟨kind, cname, principal, walletId, startDate, dueDate, note⟩ userId db
    with ⟨e, heq⟩ | heq
  · rw [heq]
    exact h
  · rw [heq]
    obtain ⟨⟨hid1, hid2, hid3, hid4, hid5⟩, hw, hlt, hls⟩ := h
    cases kind
    case you_owe =>
      exact ⟨idBoundsInv_append_loan_txn db.loans db.transactions
          db.loanPayments db.nextId _ _ ⟨hid1, hid2, hid3, hid4, hid5⟩
          rfl rfl rfl,
        walletLedgerInv_append db.wallets db.transactions
          (disbursementTxn ⟨.you_owe, cname, principal, walletId, startDate,
            dueDate, note⟩ userId db) rfl hw,
        loanTxnInv_createLoan db.loans db.transactions _ _ hlt
          (fun l hl he => by
            have h1 := hid1 l hl
            rw [he] at h1
            exact Nat.lt_irrefl db.nextId h1)
          (fun t ht lid hlid he => by
            have h1 := (hid2 t ht).2 lid hlid
            rw [he] at h1
            exact Nat.lt_irrefl db.nextId h1)
          rfl rfl rfl
          (by simp [entriesMatchLoan, loanRow, disbursementTxn,
            disbursementDirection]),
        loanPaymentsInv_createLoan db.loans db.loanPayments _ hls rfl rfl
          hpos
          (fun p hp he => by
            have h1 := hid3 p hp
            rw [he] at h1
            exact Nat.lt_irrefl db.nextId h1)⟩
    case owed_to_you =>
      exact ⟨idBoundsInv_append_loan_txn db.loans db.transactions
          db.loanPayments db.nextId _ _ ⟨hid1, hid2, hid3, hid4, hid5⟩
          rfl rfl rfl,
        walletLedgerInv_append db.wallets db.transactions
          (disbursementTxn ⟨.owed_to_you, cname, principal, walletId,
            startDate, dueDate, note⟩ userId db) rfl hw,
        loanTxnInv_createLoan db.loans db.transactions _ _ hlt
          (fun l hl he => by
            have h1 := hid1 l hl
            rw [he] at h1
            exact Nat.lt_irrefl db.nextId h1)
          (fun t ht lid hlid he => by
            have h1 := (hid2 t ht).2 lid hlid
            rw [he] at h1
            exact Nat.lt_irrefl db.nextId h1)
          rfl rfl rfl
          (by simp [entriesMatchLoan, loanRow, disbursementTxn,
            disbursementDirection]),
        loanPaymentsInv_createLoan db.loans db.loanPayments _ hls rfl rfl
          hpos
          (fun p hp he => by
            have h1 := hid3 p hp
            rw [he] at h1
            exact Nat.lt_irrefl db.nextId h1)⟩

end Ledger

namespace Ledger

open Ledger.LoanService

/-- `createLoanPayment` preserves the engine invariant. -/
theorem inv_createLoanPayment (data : CreateLoanPaymentData) (userId : Nat)
    (db : DB) (h : db.Inv) :
    (LoanService.createLoanPayment data userId db).1.Inv := by
  rcases LoanService.createLoanPayment_cases data userId db with
    ⟨e, heq⟩ | ⟨loan, hfind, hopen, hamt, heq⟩
  · rw [heq]
    exact h
  · rw [heq]
    obtain ⟨hmem, hkey, huser, hdel⟩ := loanFind_spec hfind
    obtain ⟨⟨hid1, hid2, hid3, hid4, hid5⟩, hw, hlt, hls⟩ := h
    have hpl : data.loanId < db.nextId := by
      rw [← hkey]
      exact hid1 _ hmem
    have hamt2 : data.amount ≤ loan.outstandingAmount := by omega
    obtain ⟨lid2, luser, lkind, lcn, lprin, lout, lsd, ldd, lnote, lst, ldl⟩ :=
      loan
    cases lkind
    case you_owe =>
      exact ⟨idBoundsInv_payment db.loans db.transactions db.loanPayments
          db.nextId _ _ _ ⟨hid1, hid2, hid3, hid4, hid5⟩ rfl rfl hpl
          (fun l => by by_cases hc : (l.id == data.loanId) = true <;> simp [hc]),
        walletLedgerInv_append db.wallets db.transactions
          (repaymentTxn data ⟨lid2, luser, .you_owe, lcn, lprin, lout, lsd,
            ldd, lnote, lst, ldl⟩ userId db) rfl hw,
        loanTxnInv_append_nonloan db.loans db.transactions _ _ hlt rfl
          (fun l => by by_cases hc : (l.id == data.loanId) = true <;> simp [hc]),
        loanPaymentsInv_payment db.loans db.loanPayments
          ⟨lid2, luser, .you_owe, lcn, lprin, lout, lsd, ldd, lnote, lst, ldl⟩
          (paymentRow data userId db) data.loanId data.amount hls hid4 hmem
          hkey rfl rfl hopen hamt2⟩
    case owed_to_you =>
      exact ⟨idBoundsInv_payment db.loans db.transactions db.loanPayments
          db.nextId _ _ _ ⟨hid1, hid2, hid3, hid4, hid5⟩ rfl rfl hpl
          (fun l => by by_cases hc : (l.id == data.loanId) = true <;> simp [hc]),
        walletLedgerInv_append db.wallets db.transactions
          (repaymentTxn data ⟨lid2, luser, .owed_to_you, lcn, lprin, lout, lsd,
            ldd, lnote, lst, ldl⟩ userId db) rfl hw,
        loanTxnInv_append_nonloan db.loans db.transactions _ _ hlt rfl
          (fun l => by by_cases hc : (l.id == data.loanId) = true <;> simp [hc]),
        loanPaymentsInv_payment db.loans db.loanPayments
          ⟨lid2, luser, .owed_to_you, lcn, lprin, lout, lsd, ldd, lnote, lst, ldl⟩
          (paymentRow data userId db) data.loanId data.amount hls hid4 hmem
          hkey rfl rfl hopen hamt2⟩

end Ledger

namespace Ledger

open Ledger.LoanService

/-- `deleteLoan` preserves the engine invariant. -/
theorem inv_deleteLoan (loanId userId : Nat) (db : DB) (h : db.Inv) :
    (LoanService.deleteLoan loanId userId db).1.Inv := by
  rcases LoanService.deleteLoan_cases loanId userId db with
    ⟨e, heq⟩ | ⟨loan, hfind, hnopay, heq⟩
  · rw [heq]
    exact h
  · obtain ⟨hmem, hkey, huser, hdel⟩ := loanFind_spec hfind
    subst hkey
    obtain ⟨⟨hid1, hid2, hid3, hid4, hid5⟩, hw, hlt, hls⟩ := h
    obtain ⟨⟨t0, ht0, h0d, h0l, h0u⟩, hshape⟩ := hlt loan hmem hdel
    rw [heq]
    rcases hbt : txnBaseFind db userId loan.id with _ | bt
    · exfalso
      have hnone := List.find?_eq_none.1 hbt t0 ht0
      rw [h0u, huser] at hnone
      simp [h0d, h0l] at hnone
    · obtain ⟨hbtm, hbtu, hbtd, hbtl⟩ := txnBaseFind_spec hbt
      have hm := hshape bt hbtm hbtd hbtl
      rcases hent : bt.entries with _ | ⟨entry, rest⟩
      · rw [hent] at hm
        cases hm
      rcases rest with _ | ⟨e2, r2⟩
      case cons.cons =>
        rw [hent] at hm
        cases hm
      rw [hent] at hm
      obtain ⟨ewid, edir, eamt⟩ := entry
      simp only [entriesMatchLoan, Bool.and_eq_true, beq_iff_eq] at hm
      obtain ⟨hdir, hamt⟩ := hm
      subst hdir
      subst hamt
      simp only [hbt, hent]
      obtain ⟨lid2, luser, lkind, lcn, lprin, lout, lsd, ldd, lnote, lst, ldl⟩ :=
        loan
      cases lkind
      case you_owe =>
        exact ⟨idBoundsInv_delete db.loans db.transactions db.loanPayments
            db.nextId _ _ ⟨hid1, hid2, hid3, hid4, hid5⟩
            (fun l => by by_cases hc : (l.id == lid2) = true <;> simp [hc])
            (fun t => by by_cases hc : (t.id == bt.id) = true <;> simp [hc]),
          walletLedgerInv_reverse db.wallets db.transactions bt
            ⟨ewid, .dirIn, lprin⟩ db.now hent hbtm hid5 hbtd hw,
          loanTxnInv_delete_main db.loans db.transactions
            ⟨lid2, luser, .you_owe, lcn, lprin, lout, lsd, ldd, lnote, lst, ldl⟩
            bt db.now hlt hid5 hbtm hbtl,
          loanPaymentsInv_map db.loans db.loanPayments _ hls
            (fun l => by by_cases hc : (l.id == lid2) = true <;> simp [hc])⟩
      case owed_to_you =>
        exact ⟨idBoundsInv_delete db.loans db.transactions db.loanPayments
            db.nextId _ _ ⟨hid1, hid2, hid3, hid4, hid5⟩
            (fun l => by by_cases hc : (l.id == lid2) = true <;> simp [hc])
            (fun t => by by_cases hc : (t.id == bt.id) = true <;> simp [hc]),
          (by
            have h2 := walletLedgerInv_reverse db.wallets db.transactions bt
              ⟨ewid, .dirOut, lprin⟩ db.now hent hbtm hid5 hbtd hw
            simpa [DB.WalletInvariant, entrySigned] using h2),
          loanTxnInv_delete_main db.loans db.transactions
            ⟨lid2, luser, .owed_to_you, lcn, lprin, lout, lsd, ldd, lnote, lst,
              ldl⟩
            bt db.now hlt hid5 hbtm hbtl,
          loanPaymentsInv_map db.loans db.loanPayments _ hls
            (fun l => by by_cases hc : (l.id == lid2) = true <;> simp [hc])⟩

end Ledger

namespace Ledger

theorem validateAmountPositive_ok {amount : Int} {u : Unit}
    (h : validateAmountPositive amount = .ok u) : 0 < amount := by
  unfold validateAmountPositive at h
  split at h
  · cases h
  · omega

/-- Every engine operation, run from its entry point, preserves the engine
invariant — whether it succeeds or fails. -/
theorem inv_runEngineOp (op : EngineOp) (db : DB) (h : db.Inv) :
    (runEngineOp op db).1.Inv := by
  cases op with
  | createTransaction data userId =>
    rcases hval : validateAmountPositive data.amount with e | u
    · simp only [runEngineOp, hval]
      exact h
    · simp only [runEngineOp, hval]
      cases data with
      | income walletId categoryId transactionDate amount note =>
        exact inv_createIncomeTransaction walletId categoryId transactionDate
          amount note userId db h
      | expense walletId categoryId transactionDate amount note =>
        exact inv_createExpenseTransaction walletId categoryId transactionDate
          amount note userId db h
      | transfer fromWalletId toWalletId transactionDate amount note =>
        exact inv_createTransferTransaction fromWalletId toWalletId
          transactionDate amount note userId db h
  | createLoan data userId =>
    rcases hval : validateAmountPositive data.principal with e | u
    · simp only [runEngineOp, hval]
      exact h
    · simp only [runEngineOp, hval]
      exact inv_createLoan data userId db h (validateAmountPositive_ok hval)
  | createLoanPayment data userId =>
    rcases hval : validateAmountPositive data.amount with e | u
    · simp only [runEngineOp, hval]
      exact h
    · simp only [runEngineOp, hval]
      exact inv_createLoanPayment data userId db h
  | deleteLoan loanId userId =>
    exact inv_deleteLoan loanId userId db h

end Ledger

deriving instance DecidableEq for Except

namespace Ledger

/-- Concrete store used to witness the claim theorems: one wallet holding
1000 (id 1), an expense category (id 2) and an income category (id 3), no
transactions, loans or payments yet. -/
def dbW : DB :=
  { wallets := [⟨1, 1, 1000, 1000, false⟩]
    categories := [⟨2, 1, .expense, "an uong", false⟩,
                   ⟨3, 1, .income, "luong", false⟩]
    transactions := [], loans := [], loanPayments := []
    nextId := 10, now := 99 }

/-- Concrete store holding an open `you_owe` loan of principal 400 (id 10)
with its disbursement transaction (id 11) on wallet 1. -/
def dbL : DB :=
  { wallets := [⟨1, 1, 1000, 1400, false⟩]
    categories := []
    transactions := [⟨11, 1, .income, 0, none, 400, none, some 10, none,
      [⟨1, .dirIn, 400⟩]⟩]
    loans := [⟨10, 1, .you_owe, "Bao", 400, 400, 0, none, none, .opened,
      none⟩]
    loanPayments := []
    nextId := 20, now := 99 }

end Ledger

namespace Ledger

/-- C1: after every engine operation run on a state satisfying the engine
invariant, every wallet's `currentBalance` equals `openingBalance` plus the
signed sum of the entry amounts of that wallet over non-deleted
transactions. -/
theorem C1_wallet_balance_equals_ledger (op : EngineOp) (db : DB)
    (h : db.Inv) : (runEngineOp op db).1.WalletInvariant :=
  (inv_runEngineOp op db h).2.1

theorem C1_wallet_balance_equals_ledger_witness :
    dbW.Inv ∧
      (runEngineOp (.createTransaction (.expense 1 2 0 300 none) 1)
        dbW).1.WalletInvariant :=
  ⟨by decide,
    C1_wallet_balance_equals_ledger
      (.createTransaction (.expense 1 2 0 300 none) 1) dbW (by decide)⟩

end Ledger

namespace Ledger

/-- C3: whenever an engine operation returns an error, the store state it
leaves behind is exactly the pre-call state — no partial mutation. -/
theorem C3_error_leaves_state_unchanged (op : EngineOp) (db : DB) (e : Err)
    (h : (runEngineOp op db).2 = .error e) : (runEngineOp op db).1 = db := by
  cases op with
  | createTransaction data userId =>
    rcases hval : validateAmountPositive data.amount with e' | u
    · simp only [runEngineOp, hval]
    · simp only [runEngineOp, hval] at h ⊢
      cases data with
      | income walletId categoryId transactionDate amount note =>
        rcases TransactionService.createIncome_cases walletId categoryId
            transactionDate amount note userId db with ⟨e2, heq⟩ | heq
        · simp only [TransactionService.createTransaction, heq]
        · simp only [TransactionService.createTransaction, heq] at h
          cases h
      | expense walletId categoryId transactionDate amount note =>
        rcases TransactionService.createExpense_cases walletId categoryId
            transactionDate amount note userId db with ⟨e2, heq⟩ | heq
        · simp only [TransactionService.createTransaction, heq]
        · simp only [TransactionService.createTransaction, heq] at h
          cases h
      | transfer fromWalletId toWalletId transactionDate amount note =>
        rcases TransactionService.createTransfer_cases fromWalletId toWalletId
            transactionDate amount note userId db with ⟨e2, heq⟩ | heq
        · simp only [TransactionService.createTransaction, heq]
        · simp only [TransactionService.createTransaction, heq] at h
          cases h
  | createLoan data userId =>
    rcases hval : validateAmountPositive data.principal with e' | u
    · simp only [runEngineOp, hval]
    · simp only [runEngineOp, hval] at h ⊢
      rcases LoanService.createLoan_cases data userId db with ⟨e2, heq⟩ | heq
      · simp only [heq]
      · simp only [heq] at h
        cases h
  | createLoanPayment data userId =>
    rcases hval : validateAmountPositive data.amount with e' | u
    · simp only [runEngineOp, hval]
    · simp only [runEngineOp, hval] at h ⊢
      rcases LoanService.createLoanPayment_cases data userId db with
        ⟨e2, heq⟩ | ⟨loan, _, _, _, heq⟩
      · simp only [heq]
      · simp only [heq] at h
        cases h
  | deleteLoan loanId userId =>
    simp only [runEngineOp] at h ⊢
    rcases LoanService.deleteLoan_cases loanId userId db with
      ⟨e2, heq⟩ | ⟨loan, _, _, heq⟩
    · simp only [heq]
    · simp only [heq] at h
      cases h

theorem C3_error_leaves_state_unchanged_witness :
    ((runEngineOp (.createTransaction (.expense 1 2 0 5000 none) 1) dbW).2 =
      .error .INSUFFICIENT_WALLET_BALANCE) ∧
    (runEngineOp (.createTransaction (.expense 1 2 0 5000 none) 1) dbW).1 =
      dbW :=
  ⟨by decide,
    C3_error_leaves_state_unchanged
      (.createTransaction (.expense 1 2 0 5000 none) 1) dbW
      .INSUFFICIENT_WALLET_BALANCE (by decide)⟩

/-- C9: every engine entry point taking a monetary amount rejects a
non-positive amount with a validation error and no state change. -/
theorem C9_nonpositive_amount_rejected (op : EngineOp) (db : DB) (a : Int)
    (hop : op.amountArg = some a) (ha : a ≤ 0) :
    runEngineOp op db = (db, .error .VALIDATION_ERROR) := by
  cases op with
  | createTransaction data userId =>
    cases hop
    simp [runEngineOp, validateAmountPositive, ha]
  | createLoan data userId =>
    cases hop
    simp [runEngineOp, validateAmountPositive, ha]
  | createLoanPayment data userId =>
    cases hop
    simp [runEngineOp, validateAmountPositive, ha]
  | deleteLoan loanId userId => cases hop

theorem C9_nonpositive_amount_rejected_witness :
    ((EngineOp.createLoan ⟨.you_owe, "B", 0, 1, 0, none, none⟩ 1).amountArg =
      some 0) ∧ ((0 : Int) ≤ 0) ∧
    runEngineOp (.createLoan ⟨.you_owe, "B", 0, 1, 0, none, none⟩ 1) dbW =
      (dbW, .error .VALIDATION_ERROR) :=
  ⟨rfl, by decide,
    C9_nonpositive_amount_rejected
      (.createLoan ⟨.you_owe, "B", 0, 1, 0, none, none⟩ 1) dbW 0 rfl
      (by decide)⟩

end Ledger

namespace Ledger

theorem validateCategoryOwnership_ne_insufficient (db : DB)
    (categoryId userId : Nat) (tt : TxType) :
    TransactionService.validateCategoryOwnership db categoryId userId tt ≠
      .error .INSUFFICIENT_WALLET_BALANCE := by
  unfold TransactionService.validateCategoryOwnership
  split
  · simp
  · split
    · simp
    · split
      · simp
      · simp

theorem validateWalletOwnership_none_ne_insufficient (db : DB)
    (walletId userId : Nat) :
    TransactionService.validateWalletOwnership db walletId userId none ≠
      .error .INSUFFICIENT_WALLET_BALANCE := by
  unfold TransactionService.validateWalletOwnership
  split <;> simp

/-- With unique wallet ids, the first wallet matching an id filter is the
unique wallet carrying that id. -/
theorem find_by_id_unique {l : List Wallet} {w : Wallet} {wid : Nat}
    (hnd : (l.map Wallet.id).Nodup) (hm : w ∈ l) (hid : w.id = wid) :
    (l.find? fun x => x.id == wid) = some w := by
  induction l with
  | nil => cases hm
  | cons a l ih =>
    rw [List.map_cons, List.nodup_cons] at hnd
    rcases List.mem_cons.1 hm with rfl | hm'
    · rw [List.find?_cons_of_pos _ (by simp [hid])]
    · have hane : a.id ≠ wid := fun he =>
        hnd.1 (by rw [he, ← hid]; exact List.mem_map_of_mem Wallet.id hm')
      rw [List.find?_cons_of_neg _ (by simp [hane])]
      exact ih hnd.2 hm'

theorem createIncome_never_insufficient (walletId categoryId
    transactionDate : Nat) (amount : Int) (note : Option String)
    (userId : Nat) (db : DB) :
    (TransactionService.createIncomeTransaction walletId categoryId
      transactionDate amount note userId db).2 ≠
      .error .INSUFFICIENT_WALLET_BALANCE := by
  unfold TransactionService.createIncomeTransaction
    TransactionService.validateWalletOwnership
  rcases hw : walletFind db walletId userId with _ | w
  · simp [hw]
  · simp only [hw]
    rcases hcat : TransactionService.validateCategoryOwnership db categoryId
        userId .income with ec | c
    · intro hc
      simp only [hcat] at hc
      simp at hc
      exact validateCategoryOwnership_ne_insufficient db categoryId userId
        .income (by rw [hcat, hc])
    · simp [hcat, prismaTransaction]

theorem createExpense_insufficient_iff (walletId categoryId
    transactionDate : Nat) (amount : Int) (note : Option String)
    (userId : Nat) (db : DB) (w : Wallet)
    (hnd : (db.wallets.map Wallet.id).Nodup)
    (hfind : walletFind db walletId userId = some w) :
    ((TransactionService.createExpenseTransaction walletId categoryId
        transactionDate amount note userId db).2 =
      .error .INSUFFICIENT_WALLET_BALANCE ↔ w.currentBalance < amount) := by
  obtain ⟨hm, hwid, -, -⟩ := walletFind_spec hfind
  have hidfind := find_by_id_unique hnd hm hwid
  unfold TransactionService.createExpenseTransaction
    TransactionService.validateWalletOwnership
  simp only [hfind]
  by_cases hlt : w.currentBalance < amount
  · rw [if_pos hlt]
    simp [hlt]
  · rw [if_neg hlt]
    simp only []
    constructor
    · intro hc
      exfalso
      rcases hcat : TransactionService.validateCategoryOwnership db categoryId
          userId .expense with ec | c
      · simp only [hcat] at hc
        simp at hc
        exact validateCategoryOwnership_ne_insufficient db categoryId userId
          .expense (by rw [hcat, hc])
      · simp only [hcat] at hc
        unfold prismaTransaction at hc
        simp only [] at hc
        simp only [hidfind] at hc
        rw [if_neg hlt] at hc
        simp at hc
    · intro hc
      exact absurd hc hlt

theorem createTransfer_insufficient_iff (fromWalletId toWalletId
    transactionDate : Nat) (amount : Int) (note : Option String)
    (userId : Nat) (db : DB) (w : Wallet)
    (hnd : (db.wallets.map Wallet.id).Nodup)
    (hne : fromWalletId ≠ toWalletId)
    (hfind : walletFind db fromWalletId userId = some w) :
    ((TransactionService.createTransferTransaction fromWalletId toWalletId
        transactionDate amount note userId db).2 =
      .error .INSUFFICIENT_WALLET_BALANCE ↔ w.currentBalance < amount) := by
  obtain ⟨hm, hwid, -, -⟩ := walletFind_spec hfind
  have hidfind := find_by_id_unique hnd hm hwid
  unfold TransactionService.createTransferTransaction
    TransactionService.validateWalletOwnership
  rw [if_neg (by simp [hne])]
  simp only [hfind]
  by_cases hlt : w.currentBalance < amount
  · rw [if_pos hlt]
    simp [hlt]
  · rw [if_neg hlt]
    simp only []
    constructor
    · intro hc
      exfalso
      rcases hto : walletFind db toWalletId userId with _ | w2
      · simp only [hto] at hc
        simp at hc
      · simp only [hto] at hc
        unfold prismaTransaction at hc
        simp only [] at hc
        simp only [hidfind] at hc
        rw [if_neg hlt] at hc
        simp at hc
    · intro hc
      exact absurd hc hlt

/-- C2: expense and transfer creation fail with the insufficient-balance
error exactly when the source wallet's current balance is below the
requested amount; income creation (and hence the crediting side of any
transfer, whose condition only mentions the source wallet) never fails on
balance grounds. -/
theorem C2_insufficient_balance_iff (db : DB)
    (hnd : (db.wallets.map Wallet.id).Nodup) :
    (∀ walletId categoryId transactionDate : Nat, ∀ amount : Int,
      ∀ note : Option String, ∀ userId : Nat,
      (TransactionService.createTransaction
          (.income walletId categoryId transactionDate amount note) userId
          db).2 ≠ .error .INSUFFICIENT_WALLET_BALANCE) ∧
    (∀ walletId categoryId transactionDate : Nat, ∀ amount : Int,
      ∀ note : Option String, ∀ userId : Nat, ∀ w : Wallet, 0 < amount →
      walletFind db walletId userId = some w →
      ((TransactionService.createTransaction
          (.expense walletId categoryId transactionDate amount note) userId
          db).2 = .error .INSUFFICIENT_WALLET_BALANCE ↔
        w.currentBalance < amount)) ∧
    (∀ fromWalletId toWalletId transactionDate : Nat, ∀ amount : Int,
      ∀ note : Option String, ∀ userId : Nat, ∀ w : Wallet, 0 < amount →
      fromWalletId ≠ toWalletId →
      walletFind db fromWalletId userId = some w →
      ((TransactionService.createTransaction
          (.transfer fromWalletId toWalletId transactionDate amount note)
          userId db).2 = .error .INSUFFICIENT_WALLET_BALANCE ↔
        w.currentBalance < amount)) :=
  ⟨fun walletId categoryId transactionDate amount note userId =>
    createIncome_never_insufficient walletId categoryId transactionDate
      amount note userId db,
   fun walletId categoryId transactionDate amount note userId w _ hfind =>
    createExpense_insufficient_iff walletId categoryId transactionDate
      amount note userId db w hnd hfind,
   fun fromWalletId toWalletId transactionDate amount note userId w _ hne
      hfind =>
    createTransfer_insufficient_iff fromWalletId toWalletId transactionDate
      amount note userId db w hnd hne hfind⟩

theorem C2_insufficient_balance_iff_witness :
    ((dbW.wallets.map Wallet.id).Nodup) ∧
    (walletFind dbW 1 1 = some ⟨1, 1, 1000, 1000, false⟩) ∧ ((0 : Int) < 300) ∧
    ((TransactionService.createTransaction (.expense 1 2 0 300 none) 1
        dbW).2 = .error .INSUFFICIENT_WALLET_BALANCE ↔
      (1000 : Int) < 300) :=
  ⟨by decide, by decide, by decide,
    (C2_insufficient_balance_iff dbW (by decide)).2.1 1 2 0 300 none 1
      ⟨1, 1, 1000, 1000, false⟩ (by decide) (by decide)⟩

end Ledger

namespace Ledger

open Ledger.LoanService

/-- C6: `createLoanPayment` rejects a missing/foreign/soft-deleted loan with
`LOAN_NOT_FOUND`, a closed loan with `LOAN_ALREADY_CLOSED`, and a payment
above the outstanding amount with `PAYMENT_EXCEEDS_OUTSTANDING`; every
successful payment is on an open loan and within the outstanding amount. -/
theorem C6_payment_guards :
    (∀ data : CreateLoanPaymentData, ∀ userId : Nat, ∀ db : DB,
      loanFind db data.loanId userId = none →
      createLoanPayment data userId db = (db, .error .LOAN_NOT_FOUND)) ∧
    (∀ data : CreateLoanPaymentData, ∀ userId : Nat, ∀ db : DB, ∀ loan : Loan,
      loanFind db data.loanId userId = some loan → loan.status = .closed →
      createLoanPayment data userId db = (db, .error .LOAN_ALREADY_CLOSED)) ∧
    (∀ data : CreateLoanPaymentData, ∀ userId : Nat, ∀ db : DB, ∀ loan : Loan,
      loanFind db data.loanId userId = some loan → loan.status ≠ .closed →
      data.amount > loan.outstandingAmount →
      createLoanPayment data userId db =
        (db, .error .PAYMENT_EXCEEDS_OUTSTANDING)) ∧
    (∀ data : CreateLoanPaymentData, ∀ userId : Nat, ∀ db : DB,
      ∀ p : LoanPayment, (createLoanPayment data userId db).2 = .ok p →
      ∃ loan, loanFind db data.loanId userId = some loan ∧
        loan.status = .opened ∧ data.amount ≤ loan.outstandingAmount) := by
  refine ⟨?_, ?_, ?_, ?_⟩
  · intro data userId db hfind
    unfold createLoanPayment validateLoanOwnership
    simp only [hfind]
  · intro data userId db loan hfind hclosed
    unfold createLoanPayment validateLoanOwnership
    simp only [hfind]
    rw [if_pos hclosed]
  · intro data userId db loan hfind hopen hgt
    unfold createLoanPayment validateLoanOwnership
    simp only [hfind]
    rw [if_neg hopen]
    simp only []
    rw [if_pos hgt]
  · intro data userId db p hok
    rcases createLoanPayment_cases data userId db with
      ⟨e, heq⟩ | ⟨loan, hfind, hopen, hamt, heq⟩
    · rw [heq] at hok
      cases hok
    · refine ⟨loan, hfind, ?_, by omega⟩
      cases hst : loan.status
      · rfl
      · exact absurd hst hopen

theorem C6_payment_guards_witness :
    (LoanService.loanFind dbL 10 1 =
      some ⟨10, 1, .you_owe, "Bao", 400, 400, 0, none, none, .opened, none⟩) ∧
    ((⟨10, 1, .you_owe, "Bao", 400, 400, 0, none, none, .opened,
        none⟩ : Loan).status ≠ .closed) ∧
    ((500 : Int) > 400) ∧
    LoanService.createLoanPayment ⟨10, 1, 0, 500, none⟩ 1 dbL =
      (dbL, .error .PAYMENT_EXCEEDS_OUTSTANDING) :=
  ⟨by decide, by decide, by decide,
    C6_payment_guards.2.2.1 ⟨10, 1, 0, 500, none⟩ 1 dbL
      ⟨10, 1, .you_owe, "Bao", 400, 400, 0, none, none, .opened, none⟩
      (by decide) (by decide) (by decide)⟩

end Ledger

namespace Ledger

open Ledger.LoanService

/-- C4: on invariant states every engine operation maintains
`outstandingAmount = max 0 (principal − Σ payments)` and
`status = closed ↔ outstandingAmount = 0` for every loan; and every
successful `createLoanPayment` of amount `a` sets the paid loan's
outstanding amount to `max 0 (previous − a)` and closes it exactly when
that is zero. -/
theorem C4_loan_state_machine :
    (∀ op : EngineOp, ∀ db : DB, db.Inv →
      (runEngineOp op db).1.LoanStateInvariant) ∧
    (∀ data : CreateLoanPaymentData, ∀ userId : Nat, ∀ db : DB, ∀ loan : Loan,
      ∀ p : LoanPayment,
      loanFind db data.loanId userId = some loan →
      (createLoanPayment data userId db).2 = .ok p →
      ∃ l' ∈ (createLoanPayment data userId db).1.loans,
        l'.id = data.loanId ∧
        l'.outstandingAmount = max 0 (loan.outstandingAmount - data.amount) ∧
        (l'.status = .closed ↔ l'.outstandingAmount = 0)) := by
  refine ⟨fun op db h => (inv_runEngineOp op db h).2.2.2, ?_⟩
  intro data userId db loan p hfind hok
  rcases createLoanPayment_cases data userId db with
    ⟨e, heq⟩ | ⟨loan2, hfind2, hopen, hamt, heq⟩
  · rw [heq] at hok
    cases hok
  · rw [hfind] at hfind2
    injection hfind2 with h2
    subst h2
    obtain ⟨hmem, hkey, -, -⟩ := loanFind_spec hfind
    rw [heq]
    refine ⟨_, List.mem_map_of_mem _ hmem, ?_⟩
    rw [if_pos (by simp [hkey])]
    refine ⟨by simp [hkey], rfl, ?_⟩
    show (if loan.outstandingAmount - data.amount ≤ 0 then LoanStatus.closed
        else LoanStatus.opened) = LoanStatus.closed ↔
      max 0 (loan.outstandingAmount - data.amount) = 0
    rcases le_or_lt (loan.outstandingAmount - data.amount) 0 with hle | hlt
    · rw [if_pos hle, max_eq_left hle]
      simp
    · rw [if_neg (by omega), max_eq_right hlt.le]
      exact Iff.intro (fun hc => nomatch hc)
        (fun hc => absurd hc (by omega))

theorem C4_loan_state_machine_witness :
    dbL.Inv ∧
    (runEngineOp (.createLoanPayment ⟨10, 1, 0, 150, none⟩ 1)
      dbL).1.LoanStateInvariant ∧
    (LoanService.loanFind dbL 10 1 =
      some ⟨10, 1, .you_owe, "Bao", 400, 400, 0, none, none, .opened, none⟩) ∧
    ((LoanService.createLoanPayment ⟨10, 1, 0, 150, none⟩ 1 dbL).2 =
      .ok ⟨21, 10, 1, 1, 20, 0, 150, none⟩) ∧
    (∃ l' ∈ (LoanService.createLoanPayment ⟨10, 1, 0, 150, none⟩ 1
        dbL).1.loans,
      l'.id = 10 ∧
      l'.outstandingAmount =
        max 0 ((400 : Int) - 150) ∧
      (l'.status = .closed ↔ l'.outstandingAmount = 0)) :=
  ⟨by decide,
   C4_loan_state_machine.1 (.createLoanPayment ⟨10, 1, 0, 150, none⟩ 1) dbL
     (by decide),
   by decide, by decide,
   C4_loan_state_machine.2 ⟨10, 1, 0, 150, none⟩ 1 dbL
     ⟨10, 1, .you_owe, "Bao", 400, 400, 0, none, none, .opened, none⟩
     ⟨21, 10, 1, 1, 20, 0, 150, none⟩ (by decide) (by decide)⟩

end Ledger

namespace Ledger

open Ledger.LoanService

/-- Concrete store: `dbL` plus one recorded payment on loan 10. -/
def dbLP : DB :=
  { dbL with loanPayments := [⟨21, 10, 1, 1, 20, 0, 150, none⟩] }

/-- C5: `deleteLoan` fails with `LOAN_HAS_PAYMENTS` whenever a payment
exists for the (found) loan; and on an invariant state every successful
`deleteLoan` finds the live disbursement transaction with its single entry
of amount `principal`, applies the opposite balance delta to its wallet,
and soft-deletes both that transaction and the loan. -/
theorem C5_delete_loan :
    (∀ loanId userId : Nat, ∀ db : DB, ∀ loan : Loan,
      loanFind db loanId userId = some loan →
      (∃ p ∈ db.loanPayments, p.loanId = loan.id) →
      deleteLoan loanId userId db = (db, .error .LOAN_HAS_PAYMENTS)) ∧
    (∀ loanId userId : Nat, ∀ db : DB, ∀ l : Loan, db.Inv →
      (deleteLoan loanId userId db).2 = .ok l →
      ∃ loan, loanFind db loanId userId = some loan ∧
        (∀ p ∈ db.loanPayments, p.loanId ≠ loan.id) ∧
        ∃ bt ∈ db.transactions, bt.deletedAt = none ∧
          bt.loanId = some loan.id ∧
          ∃ entry, bt.entries = [entry] ∧
            entry.amount = loan.principal ∧
            entry.direction = disbursementDirection loan.kind ∧
            (deleteLoan loanId userId db).1 =
              { db with
                  wallets := (walletIncrement db.wallets entry.walletId
                    (if loan.kind = .you_owe then -loan.principal
                     else loan.principal))
                  transactions := txnSoftDelete db.transactions bt.id db.now
                  loans := loanSoftDelete db.loans loanId db.now }) := by
  constructor
  · intro loanId userId db loan hfind hp
    obtain ⟨p, hpm, hpl⟩ := hp
    have hfind' : (db.loans.find? fun l =>
        l.id == loanId && l.userId == userId && l.deletedAt == none) =
        some loan := hfind
    have hany : (db.loanPayments.any fun p => p.loanId == loan.id) = true :=
      List.any_eq_true.2 ⟨p, hpm, by simp [hpl]⟩
    unfold deleteLoan prismaTransaction
    simp [hfind', hany]
  · intro loanId userId db l hInv hok
    rcases deleteLoan_cases loanId userId db with
      ⟨e, heq⟩ | ⟨loan, hfind, hnopay, heq⟩
    · rw [heq] at hok
      cases hok
    · obtain ⟨hmem, hkey, huser, hdel⟩ := loanFind_spec hfind
      obtain ⟨-, -, hlt, -⟩ := hInv
      obtain ⟨⟨t0, ht0, h0d, h0l, h0u⟩, hshape⟩ := hlt loan hmem hdel
      refine ⟨loan, hfind, ?_, ?_⟩
      · intro p hpm hpl
        rw [List.any_eq_false] at hnopay
        exact hnopay p hpm (by simp [hpl])
      · rcases hbt : txnBaseFind db userId loan.id with _ | bt
        · exfalso
          have hnone := List.find?_eq_none.1 hbt t0 ht0
          rw [h0u, huser] at hnone
          simp [h0d, h0l] at hnone
        · obtain ⟨hbtm, hbtu, hbtd, hbtl⟩ := txnBaseFind_spec hbt
          have hm := hshape bt hbtm hbtd hbtl
          rcases hent : bt.entries with _ | ⟨entry, rest⟩
          · rw [hent] at hm
            cases hm
          rcases rest with _ | ⟨e2, r2⟩
          case cons.cons =>
            rw [hent] at hm
            cases hm
          rw [hent] at hm
          obtain ⟨ewid, edir, eamt⟩ := entry
          simp only [entriesMatchLoan, Bool.and_eq_true, beq_iff_eq] at hm
          obtain ⟨hdir, hamt⟩ := hm
          subst hdir
          subst hamt
          refine ⟨bt, hbtm, hbtd, hbtl,
            ⟨ewid, disbursementDirection loan.kind, loan.principal⟩, hent,
            rfl, rfl, ?_⟩
          rw [heq]
          simp only [hbt, hent]
  
theorem C5_delete_loan_witness :
    (LoanService.loanFind dbLP 10 1 =
      some ⟨10, 1, .you_owe, "Bao", 400, 400, 0, none, none, .opened, none⟩) ∧
    (∃ p ∈ dbLP.loanPayments, p.loanId = 10) ∧
    (LoanService.deleteLoan 10 1 dbLP =
      (dbLP, .error .LOAN_HAS_PAYMENTS)) ∧
    dbL.Inv ∧
    ((LoanService.deleteLoan 10 1 dbL).2 =
      .ok ⟨10, 1, .you_owe, "Bao", 400, 400, 0, none, none, .opened,
        some 99⟩) ∧
    (∃ loan, LoanService.loanFind dbL 10 1 = some loan ∧
      (∀ p ∈ dbL.loanPayments, p.loanId ≠ loan.id) ∧
      ∃ bt ∈ dbL.transactions, bt.deletedAt = none ∧
        bt.loanId = some loan.id ∧
        ∃ entry, bt.entries = [entry] ∧
          entry.amount = loan.principal ∧
          entry.direction = LoanService.disbursementDirection loan.kind ∧
          (LoanService.deleteLoan 10 1 dbL).1 =
            { dbL with
                wallets := (walletIncrement dbL.wallets entry.walletId
                  (if loan.kind = .you_owe then -loan.principal
                   else loan.principal))
                transactions := txnSoftDelete dbL.transactions bt.id dbL.now
                loans := LoanService.loanSoftDelete dbL.loans 10 dbL.now }) :=
  ⟨by decide, by decide,
   C5_delete_loan.1 10 1 dbLP
     ⟨10, 1, .you_owe, "Bao", 400, 400, 0, none, none, .opened, none⟩
     (by decide) (by decide),
   by decide, by decide,
   C5_delete_loan.2 10 1 dbL
     ⟨10, 1, .you_owe, "Bao", 400, 400, 0, none, none, .opened, some 99⟩
     (by decide) (by decide)⟩

end Ledger

namespace Ledger

open Ledger.LoanService

/-- C7: whenever the wallet is found (and, for `owed_to_you`, holds at least
`principal`), `createLoan` succeeds — regardless of whether a default
category exists — creating atomically a loan with
`outstandingAmount = principal` and open status, a back-referencing
transaction (`income`/`in` entry for `you_owe`, `expense`/`out` entry for
`owed_to_you`) of amount `principal`, and the matching wallet balance
delta. -/
theorem C7_create_loan_effects (data : CreateLoanData) (userId : Nat)
    (db : DB) (w : Wallet)
    (hfind : walletFind db data.walletId userId = some w)
    (hbal : data.kind = .owed_to_you → data.principal ≤ w.currentBalance) :
    ∃ loan txn,
      createLoan data userId db =
        ({ db with
            loans := db.loans ++ [loan]
            transactions := db.transactions ++ [txn]
            wallets := (walletIncrement db.wallets data.walletId
              (if data.kind = .you_owe then data.principal
               else -data.principal))
            nextId := db.nextId + 2 }, .ok loan) ∧
      loan.outstandingAmount = data.principal ∧
      loan.status = .opened ∧
      loan.principal = data.principal ∧
      txn.loanId = some loan.id ∧
      txn.ttype =
        (if data.kind = .you_owe then TxType.income else TxType.expense) ∧
      txn.amount = data.principal ∧
      txn.entries = [⟨data.walletId,
        (if data.kind = .you_owe then Direction.dirIn else Direction.dirOut),
        data.principal⟩] := by
  obtain ⟨kind, cname, principal, walletId, startDate, dueDate, note⟩ := data
  cases kind
  case you_owe =>
    refine ⟨loanRow ⟨.you_owe, cname, principal, walletId, startDate,
        dueDate, note⟩ userId db,
      disbursementTxn ⟨.you_owe, cname, principal, walletId, startDate,
        dueDate, note⟩ userId db, ?_, rfl, rfl, rfl, rfl, rfl, rfl, rfl⟩
    unfold LoanService.createLoan LoanService.validateWalletOwnership
    simp only [hfind]
    rfl
  case owed_to_you =>
    have hble : principal ≤ w.currentBalance := hbal rfl
    refine ⟨loanRow ⟨.owed_to_you, cname, principal, walletId, startDate,
        dueDate, note⟩ userId db,
      disbursementTxn ⟨.owed_to_you, cname, principal, walletId, startDate,
        dueDate, note⟩ userId db, ?_, rfl, rfl, rfl, rfl, rfl, rfl, rfl⟩
    unfold LoanService.createLoan LoanService.validateWalletOwnership
    simp only [hfind]
    rw [if_neg (show ¬ w.currentBalance < principal by omega)]
    rfl

theorem C7_create_loan_effects_witness :
    (walletFind dbW 1 1 = some ⟨1, 1, 1000, 1000, false⟩) ∧
    (((⟨.owed_to_you, "Chi", 400, 1, 0, none, none⟩ :
        CreateLoanData).kind = .owed_to_you) →
      (400 : Int) ≤ (1000 : Int)) ∧
    (∃ loan txn,
      LoanService.createLoan ⟨.owed_to_you, "Chi", 400, 1, 0, none, none⟩ 1
          dbW =
        ({ dbW with
            loans := dbW.loans ++ [loan]
            transactions := dbW.transactions ++ [txn]
            wallets := (walletIncrement dbW.wallets 1
              (if (⟨.owed_to_you, "Chi", 400, 1, 0, none, none⟩ :
                  CreateLoanData).kind = .you_owe then (400 : Int)
               else -(400 : Int)))
            nextId := dbW.nextId + 2 }, .ok loan) ∧
      loan.outstandingAmount = 400 ∧
      loan.status = .opened ∧
      loan.principal = 400 ∧
      txn.loanId = some loan.id ∧
      txn.ttype =
        (if (⟨.owed_to_you, "Chi", 400, 1, 0, none, none⟩ :
            CreateLoanData).kind = .you_owe then TxType.income
         else TxType.expense) ∧
      txn.amount = 400 ∧
      txn.entries = [⟨1,
        (if (⟨.owed_to_you, "Chi", 400, 1, 0, none, none⟩ :
            CreateLoanData).kind = .you_owe then Direction.dirIn
         else Direction.dirOut), 400⟩]) :=
  ⟨by decide, fun _ => by decide,
    C7_create_loan_effects ⟨.owed_to_you, "Chi", 400, 1, 0, none, none⟩ 1
      dbW ⟨1, 1, 1000, 1000, false⟩ (by decide) (fun _ => by decide)⟩

end Ledger

namespace Ledger

theorem find_id_walletIncrement_self (ws : List Wallet) (wid : Nat)
    (δ : Int) :
    ((walletIncrement ws wid δ).find? fun w => w.id == wid) =
      ((ws.find? fun w => w.id == wid).map
        fun w => { w with currentBalance := w.currentBalance + δ }) := by
  induction ws with
  | nil => rfl
  | cons a l ih =>
    by_cases h : a.id = wid
    · rw [show walletIncrement (a :: l) wid δ =
          ({ a with currentBalance := a.currentBalance + δ } ::
            walletIncrement l wid δ) from by simp [walletIncrement, h]]
      rw [List.find?_cons_of_pos _ (by simp [h]),
        List.find?_cons_of_pos _ (by simp [h])]
      rfl
    · rw [show walletIncrement (a :: l) wid δ =
          (a :: walletIncrement l wid δ) from by simp [walletIncrement, h]]
      rw [List.find?_cons_of_neg _ (by simp [h]),
        List.find?_cons_of_neg _ (by simp [h])]
      exact ih

theorem find_id_walletIncrement_other (ws : List Wallet) (wid target : Nat)
    (δ : Int) (hne : target ≠ wid) :
    ((walletIncrement ws wid δ).find? fun w => w.id == target) =
      ws.find? fun w => w.id == target := by
  induction ws with
  | nil => rfl
  | cons a l ih =>
    by_cases h : a.id = wid
    · rw [show walletIncrement (a :: l) wid δ =
          ({ a with currentBalance := a.currentBalance + δ } ::
            walletIncrement l wid δ) from by simp [walletIncrement, h]]
      by_cases h2 : a.id = target
      · exact absurd (h2 ▸ h) hne
      · rw [List.find?_cons_of_neg _ (by simp [h2]),
          List.find?_cons_of_neg _ (by simp [h2])]
        exact ih
    · rw [show walletIncrement (a :: l) wid δ =
          (a :: walletIncrement l wid δ) from by simp [walletIncrement, h]]
      by_cases h2 : a.id = target
      · rw [List.find?_cons_of_pos _ (by simp [h2]),
          List.find?_cons_of_pos _ (by simp [h2])]
      · rw [List.find?_cons_of_neg _ (by simp [h2]),
          List.find?_cons_of_neg _ (by simp [h2])]
        exact ih

/-- C8: a transfer between identical wallets fails with
`SAME_WALLET_TRANSFER`; a successful transfer posts exactly two entries —
`out` of the full amount on the source, `in` of the full amount on the
destination, two distinct wallets — under one category-less transaction,
decrementing the source balance and incrementing the destination balance by
that amount. -/
theorem C8_transfer_shape :
    (∀ fromWalletId toWalletId transactionDate : Nat, ∀ amount : Int,
      ∀ note : Option String, ∀ userId : Nat, ∀ db : DB,
      fromWalletId = toWalletId →
      TransactionService.createTransaction
          (.transfer fromWalletId toWalletId transactionDate amount note)
          userId db =
        (db, .error .SAME_WALLET_TRANSFER)) ∧
    (∀ fromWalletId toWalletId transactionDate : Nat, ∀ amount : Int,
      ∀ note : Option String, ∀ userId : Nat, ∀ db : DB, ∀ t : Txn,
      (TransactionService.createTransaction
          (.transfer fromWalletId toWalletId transactionDate amount note)
          userId db).2 = .ok t →
      fromWalletId ≠ toWalletId ∧
      t.categoryId = none ∧
      t.amount = amount ∧
      t.entries = [⟨fromWalletId, .dirOut, amount⟩,
        ⟨toWalletId, .dirIn, amount⟩] ∧
      (TransactionService.createTransaction
          (.transfer fromWalletId toWalletId transactionDate amount note)
          userId db).1.wallets =
        walletIncrement (walletIncrement db.wallets fromWalletId (-amount))
          toWalletId amount ∧
      (TransactionService.createTransaction
          (.transfer fromWalletId toWalletId transactionDate amount note)
          userId db).1.transactions = db.transactions ++ [t] ∧
      walletBalanceOf (TransactionService.createTransaction
          (.transfer fromWalletId toWalletId transactionDate amount note)
          userId db).1 fromWalletId =
        (walletBalanceOf db fromWalletId).map (fun b => b - amount) ∧
      walletBalanceOf (TransactionService.createTransaction
          (.transfer fromWalletId toWalletId transactionDate amount note)
          userId db).1 toWalletId =
        (walletBalanceOf db toWalletId).map (fun b => b + amount)) := by
  constructor
  · intro fromWalletId toWalletId transactionDate amount note userId db h
    rw [show TransactionService.createTransaction
        (.transfer fromWalletId toWalletId transactionDate amount note)
        userId db =
        TransactionService.createTransferTransaction fromWalletId toWalletId
          transactionDate amount note userId db from rfl]
    unfold TransactionService.createTransferTransaction
    rw [if_pos (by simp [h])]
  · intro fromWalletId toWalletId transactionDate amount note userId db t hok
    have hne : fromWalletId ≠ toWalletId := by
      intro h
      rw [show TransactionService.createTransaction
          (.transfer fromWalletId toWalletId transactionDate amount note)
          userId db =
          TransactionService.createTransferTransaction fromWalletId
            toWalletId transactionDate amount note userId db from rfl] at hok
      unfold TransactionService.createTransferTransaction at hok
      rw [if_pos (by simp [h])] at hok
      cases hok
    rcases TransactionService.createTransfer_cases fromWalletId toWalletId
        transactionDate amount note userId db with ⟨e, heq⟩ | heq
    · rw [show TransactionService.createTransaction
          (.transfer fromWalletId toWalletId transactionDate amount note)
          userId db =
          TransactionService.createTransferTransaction fromWalletId
            toWalletId transactionDate amount note userId db from rfl,
        heq] at hok
      cases hok
    · rw [show TransactionService.createTransaction
          (.transfer fromWalletId toWalletId transactionDate amount note)
          userId db =
          TransactionService.createTransferTransaction fromWalletId
            toWalletId transactionDate amount note userId db from rfl,
        heq] at hok ⊢
      injection hok with hok2
      subst hok2
      refine ⟨hne, rfl, rfl, rfl, rfl, rfl, ?_, ?_⟩
      · unfold walletBalanceOf
        rw [show ({ db with
            wallets := walletIncrement
              (walletIncrement db.wallets fromWalletId (-amount))
              toWalletId amount
            transactions := db.transactions ++
              [TransactionService.transferTxn fromWalletId toWalletId
                transactionDate amount note userId db]
            nextId := db.nextId + 1 } : DB).wallets =
          walletIncrement
            (walletIncrement db.wallets fromWalletId (-amount))
            toWalletId amount from rfl]
        rw [find_id_walletIncrement_other _ toWalletId fromWalletId amount
          hne]
        rw [find_id_walletIncrement_self db.wallets fromWalletId (-amount)]
        cases hfw : db.wallets.find? fun w => w.id == fromWalletId with
        | none => rfl
        | some w =>
          show some (w.currentBalance + -amount) =
            some (w.currentBalance - amount)
          rw [Int.sub_eq_add_neg]
      · unfold walletBalanceOf
        rw [show ({ db with
            wallets := walletIncrement
              (walletIncrement db.wallets fromWalletId (-amount))
              toWalletId amount
            transactions := db.transactions ++
              [TransactionService.transferTxn fromWalletId toWalletId
                transactionDate amount note userId db]
            nextId := db.nextId + 1 } : DB).wallets =
          walletIncrement
            (walletIncrement db.wallets fromWalletId (-amount))
            toWalletId amount from rfl]
        rw [find_id_walletIncrement_self
          (walletIncrement db.wallets fromWalletId (-amount)) toWalletId
          amount]
        rw [find_id_walletIncrement_other db.wallets fromWalletId toWalletId
          (-amount) (Ne.symm hne)]
        cases hfw : db.wallets.find? fun w => w.id == toWalletId with
        | none => rfl
        | some w => rfl

/-- Concrete store with two wallets for the transfer witness. -/
def dbT2 : DB :=
  { wallets := [⟨1, 1, 500, 500, false⟩, ⟨2, 1, 100, 100, false⟩]
    categories := [], transactions := [], loans := [], loanPayments := []
    nextId := 10, now := 99 }

theorem C8_transfer_shape_witness :
    (TransactionService.createTransaction (.transfer 1 1 0 200 none) 1 dbW =
      (dbW, .error .SAME_WALLET_TRANSFER)) ∧
    ((TransactionService.createTransaction (.transfer 1 2 0 200 none) 1
      dbT2).2 = .ok (TransactionService.transferTxn 1 2 0 200 none 1 dbT2)) ∧
    ((1 : Nat) ≠ 2) :=
  ⟨C8_transfer_shape.1 1 1 0 200 none 1 dbW rfl,
   by decide,
   (C8_transfer_shape.2 1 2 0 200 none 1 dbT2
     (TransactionService.transferTxn 1 2 0 200 none 1 dbT2) (by decide)).1⟩

end Ledger

namespace Ledger

/-- Spec-side (claim wording): the user's open, non-deleted loans of one
kind. -/
def specOpenLoans (db : DB) (userId : Nat) (kind : LoanKind) : List Loan :=
  db.loans.filter fun l =>
    l.userId == userId && l.deletedAt == none && l.kind == kind &&
    l.status == LoanStatus.opened

/-- Spec-side (claim wording): every non-deleted loan of the user,
regardless of kind or status. -/
def specAllLoans (db : DB) (userId : Nat) : List Loan :=
  db.loans.filter fun l => l.userId == userId && l.deletedAt == none

theorem length_filter_partition (loans : List Loan) (p : Loan → Bool) :
    (loans.filter p).length =
      (loans.filter fun l => p l && l.kind == LoanKind.you_owe &&
        l.status == LoanStatus.opened).length +
      ((loans.filter fun l => p l && l.kind == LoanKind.you_owe &&
        l.status == LoanStatus.closed).length +
      ((loans.filter fun l => p l && l.kind == LoanKind.owed_to_you &&
        l.status == LoanStatus.opened).length +
      (loans.filter fun l => p l && l.kind == LoanKind.owed_to_you &&
        l.status == LoanStatus.closed).length)) := by
  induction loans with
  | nil => rfl
  | cons a l ih =>
    by_cases hp : p a = true
    · cases hk : a.kind <;> cases hs : a.status <;>
        simp [List.filter_cons, hp, hk, hs] <;> omega
    · have hp2 : p a = false := by simpa using hp
      simp [List.filter_cons, hp2]
      omega

end Ledger

namespace Ledger

/-- C10: `getLoanStats` buckets count and total exactly the open,
non-deleted loans per kind — totalling `outstandingAmount`, not principal —
while `totalLoans` counts every non-deleted loan of the owner regardless of
kind or status. -/
theorem C10_loan_stats (db : DB) (userId : Nat) :
    LoanService.getLoanStats userId db =
      { youOwe :=
          { count := (specOpenLoans db userId .you_owe).length
            totalAmount := ((specOpenLoans db userId .you_owe).map
              (·.outstandingAmount)).sum }
        owedToYou :=
          { count := (specOpenLoans db userId .owed_to_you).length
            totalAmount := ((specOpenLoans db userId .owed_to_you).map
              (·.outstandingAmount)).sum }
        totalLoans := (specAllLoans db userId).length } := by
  have hpart : (db.loans.filter fun l => l.userId == userId &&
        l.deletedAt == none).length =
      (db.loans.filter fun l => l.userId == userId && l.deletedAt == none &&
        l.kind == LoanKind.you_owe && l.status == LoanStatus.opened).length +
      ((db.loans.filter fun l => l.userId == userId && l.deletedAt == none &&
        l.kind == LoanKind.you_owe && l.status == LoanStatus.closed).length +
      ((db.loans.filter fun l => l.userId == userId && l.deletedAt == none &&
        l.kind == LoanKind.owed_to_you &&
        l.status == LoanStatus.opened).length +
      (db.loans.filter fun l => l.userId == userId && l.deletedAt == none &&
        l.kind == LoanKind.owed_to_you &&
        l.status == LoanStatus.closed).length)) :=
    length_filter_partition db.loans
      (fun l => l.userId == userId && l.deletedAt == none)
  unfold LoanService.getLoanStats LoanService.loanGroupBy specOpenLoans
    specAllLoans
  simp only [List.filterMap_cons, List.filterMap_nil]
  by_cases h1 : (db.loans.filter fun l => l.userId == userId &&
      l.deletedAt == none && l.kind == LoanKind.you_owe &&
      l.status == LoanStatus.opened) = [] <;>
  by_cases h2 : (db.loans.filter fun l => l.userId == userId &&
      l.deletedAt == none && l.kind == LoanKind.you_owe &&
      l.status == LoanStatus.closed) = [] <;>
  by_cases h3 : (db.loans.filter fun l => l.userId == userId &&
      l.deletedAt == none && l.kind == LoanKind.owed_to_you &&
      l.status == LoanStatus.opened) = [] <;>
  by_cases h4 : (db.loans.filter fun l => l.userId == userId &&
      l.deletedAt == none && l.kind == LoanKind.owed_to_you &&
      l.status == LoanStatus.closed) = [] <;>
    simp only [List.isEmpty_iff] <;>
    simp [h1, h2, h3, h4, LoanService.LoanStats.mk.injEq,
      LoanService.LoanStatsBucket.mk.injEq] at hpart ⊢ <;>
    first
      | omega
      | (rw [eq_comm, List.length_eq_zero, List.filter_eq_nil_iff]
         simpa using hpart)

end Ledger
